import Mathlib

/-!
Shallow embedding of `loadtest/collect_metrics.py`.

Python JSON values are modelled by the inductive `Json`; Python floats are
modelled as rationals (`Rat`); a Python exception (KeyError, TypeError,
ValueError, AttributeError) is modelled as `none` in the `Option` monad;
Prometheus HTTP transport is an oracle `String → Option Json` (query text to
JSON envelope, `none` for a transport failure).
-/

namespace CollectMetrics

/-- A JSON value as produced by `response.json()` / `json.load`. -/
inductive Json where
  | null : Json
  | b : Bool → Json
  | num : Rat → Json
  | str : String → Json
  | arr : List Json → Json
  | obj : List (String × Json) → Json

/-- Lookup in an association list (a Python dict's items, in insertion order). -/
def lookupA {α : Type} : List (String × α) → String → Option α
  | [], _ => none
  | (k, v) :: rest, key => if k = key then some v else lookupA rest key

/-- Python truthiness of a JSON value. -/
def Json.truthy : Json → Bool
  | .null => false
  | .b v => v
  | .num q => q != 0
  | .str s => s != ""
  | .arr l => !l.isEmpty
  | .obj l => !l.isEmpty

/-- Python `d.get(key, default)`: raises (`none`) unless the receiver is a dict. -/
def pyGet (j : Json) (key : String) (dflt : Json) : Option Json :=
  match j with
  | .obj kvs => some ((lookupA kvs key).getD dflt)
  | _ => none

/-- Python `d[key]` subscript with a string key: KeyError / TypeError as `none`. -/
def getItem (j : Json) (key : String) : Option Json :=
  match j with
  | .obj kvs => lookupA kvs key
  | _ => none

/-- Python `x[i]` for a non-negative index: list and string indexing. -/
def index (j : Json) (i : Nat) : Option Json :=
  match j with
  | .arr l => l.get? i
  | .str s => (s.data.get? i).map (fun c => Json.str (String.mk [c]))
  | _ => none

/-- Python `for x in j`: lists yield elements, dicts keys, strings characters. -/
def pyIter (j : Json) : Option (List Json) :=
  match j with
  | .arr l => some l
  | .obj kvs => some (kvs.map (fun p => Json.str p.1))
  | .str s => some (s.data.map (fun c => Json.str (String.mk [c])))
  | _ => none

/-! ## Kernel-computable rational arithmetic

The Batteries field operations on `Rat` are `@[irreducible]`, which blocks
evaluation of concrete inputs inside the kernel.  All arithmetic in the
embedding therefore goes through the following wrappers, each proved equal to
the corresponding field operation. -/

def ratAdd (a b : Rat) : Rat := Rat.divInt (a.num * b.den + b.num * a.den) (a.den * b.den)

def ratMul (a b : Rat) : Rat := Rat.divInt (a.num * b.num) (a.den * b.den)

def ratDiv (a b : Rat) : Rat := Rat.divInt (a.num * b.den) (a.den * b.num)

def ratNeg (a : Rat) : Rat := Rat.divInt (-a.num) a.den

def ratSub (a b : Rat) : Rat := ratAdd a (ratNeg b)

def ratPow (a : Rat) (n : Nat) : Rat := Rat.divInt (a.num ^ n) ((a.den : Int) ^ n)

def intToRat (n : Int) : Rat := Rat.divInt n 1

/-- Value of a list of decimal digit characters. -/
def digitsToNat (l : List Char) : Nat :=
  l.foldl (fun acc c => 10 * acc + (c.toNat - 48)) 0

/-- Parse a run of digits, then an optional fractional part, off the front of
a character list; models the mantissa grammar of Python's `float()`. -/
def parseMantissa (cs : List Char) : Option (Rat × List Char) :=
  let ip := cs.takeWhile Char.isDigit
  let rest := cs.drop ip.length
  match rest with
  | '.' :: rest2 =>
    let fp := rest2.takeWhile Char.isDigit
    let rest3 := rest2.drop fp.length
    if ip.isEmpty && fp.isEmpty then none
    else some (ratAdd (digitsToNat ip : Rat) (ratDiv (digitsToNat fp : Rat) (ratPow 10 fp.length)), rest3)
  | _ =>
    if ip.isEmpty then none else some ((digitsToNat ip : Rat), rest)

/-- Apply a signed decimal exponent. -/
def applyExp (q : Rat) (e : Int) : Rat :=
  if 0 ≤ e then ratMul q (ratPow 10 e.toNat) else ratDiv q (ratPow 10 (-e).toNat)

/-- Parse the signed digits of an exponent and apply them. -/
def parseExpDigits (q : Rat) (cs : List Char) : Option Rat :=
  let (sgn, ds) : Int × List Char :=
    match cs with
    | '+' :: r => (1, r)
    | '-' :: r => (-1, r)
    | r => (1, r)
  let ed := ds.takeWhile Char.isDigit
  if ed.isEmpty || !(ds.drop ed.length).isEmpty then none
  else some (applyExp q (sgn * (digitsToNat ed : Int)))

/-- Parse an optional exponent suffix (after the mantissa). -/
def parseExpPart (q : Rat) (cs : List Char) : Option Rat :=
  match cs with
  | [] => some q
  | 'e' :: rest => parseExpDigits q rest
  | 'E' :: rest => parseExpDigits q rest
  | _ => none

/-- Python `float(s)` on a string: optional surrounding whitespace, optional
sign, decimal mantissa, optional exponent.  `none` models `ValueError`.
(`inf`/`nan`/underscore forms are outside the model.) -/
def parseFloat (s : String) : Option Rat :=
  let cs := (((s.data.dropWhile Char.isWhitespace).reverse.dropWhile Char.isWhitespace).reverse)
  let (neg, cs1) : Bool × List Char :=
    match cs with
    | '+' :: r => (false, r)
    | '-' :: r => (true, r)
    | r => (false, r)
  match parseMantissa cs1 with
  | none => none
  | some (q, rest) =>
    match parseExpPart q rest with
    | none => none
    | some q' => some (if neg then ratNeg q' else q')

/-- Python `float(x)` on a JSON value: numbers and booleans coerce, strings
parse, anything else raises (`none`). -/
def pyFloat (j : Json) : Option Rat :=
  match j with
  | .num q => some q
  | .b v => some (if v then 1 else 0)
  | .str s => parseFloat s
  | _ => none

/-- Round to the nearest integer, ties to even — the rounding used by
Python's `round` (floats are modelled as exact rationals). -/
def roundHalfEven (q : Rat) : Int :=
  if ratSub q (intToRat q.floor) < Rat.divInt 1 2 then q.floor
  else if Rat.divInt 1 2 < ratSub q (intToRat q.floor) then q.floor + 1
  else if q.floor % 2 = 0 then q.floor else q.floor + 1

/-- Python `round(q, n)`. -/
def pyRound (q : Rat) (n : Nat) : Rat :=
  ratDiv (intToRat (roundHalfEven (ratMul q (ratPow 10 n)))) (ratPow 10 n)

/-- Python `int(q)` on a float: truncation toward zero. -/
def pyInt (q : Rat) : Int :=
  if 0 ≤ q then q.floor else q.ceil

/-- Python `j == "lit"` for a string literal. -/
def Json.strEq (j : Json) (s : String) : Bool :=
  match j with
  | .str t => t == s
  | _ => false

/-! ## Query templates (`collect_pod_metrics` / `collect_ingress_metrics`) -/

/-- `ns_selector = '|'.join(namespaces)` -/
def ns_selector (namespaces : List String) : String :=
  String.intercalate "|" namespaces

def cpu_query (namespaces : List String) (duration_minutes : Nat) : String :=
  "sum by (namespace, pod) (rate(container_cpu_usage_seconds_total\x7bnamespace=~\"" ++
    ns_selector namespaces ++ "\", container!=\"\"\x7d[" ++ toString duration_minutes ++ "m]))"

def mem_query (namespaces : List String) : String :=
  "sum by (namespace, pod) (container_memory_working_set_bytes\x7bnamespace=~\"" ++
    ns_selector namespaces ++ "\", container!=\"\"\x7d)"

def net_rx_query (namespaces : List String) (duration_minutes : Nat) : String :=
  "sum by (namespace, pod) (rate(container_network_receive_bytes_total\x7bnamespace=~\"" ++
    ns_selector namespaces ++ "\"\x7d[" ++ toString duration_minutes ++ "m]))"

def net_tx_query (namespaces : List String) (duration_minutes : Nat) : String :=
  "sum by (namespace, pod) (rate(container_network_transmit_bytes_total\x7bnamespace=~\"" ++
    ns_selector namespaces ++ "\"\x7d[" ++ toString duration_minutes ++ "m]))"

/-- `host_selector = '|'.join(hosts)` -/
def host_selector (hosts : List String) : String :=
  String.intercalate "|" hosts

def req_query (hosts : List String) : String :=
  "sum by (host) (nginx_ingress_controller_requests\x7bhost=~\"" ++
    host_selector hosts ++ "\"\x7d)"

def rate_query (hosts : List String) (duration_minutes : Nat) : String :=
  "sum by (host) (rate(nginx_ingress_controller_requests\x7bhost=~\"" ++
    host_selector hosts ++ "\"\x7d[" ++ toString duration_minutes ++ "m]))"

/-- `percentile` is the rendered float literal: "0.5", "0.95" or "0.99". -/
def latency_query (percentile : String) (hosts : List String) (duration_minutes : Nat) : String :=
  "histogram_quantile(" ++ percentile ++
    ", sum by (host, le) (rate(nginx_ingress_controller_request_duration_seconds_bucket\x7bhost=~\"" ++
    host_selector hosts ++ "\"\x7d[" ++ toString duration_minutes ++ "m])))"

/-! ## Collected data model -/

/-- The per-pod record written into `metrics['cpu'][ns][pod]`. -/
structure CpuEntry where
  usage_cores : Rat
  usage_millicores : Rat
deriving DecidableEq

/-- The per-pod record written into `metrics['memory'][ns][pod]`. -/
structure MemEntry where
  usage_bytes : Rat
  usage_mb : Rat
deriving DecidableEq

/-- The per-pod record written into `metrics['network'][ns][pod]`; each key is
present only if the corresponding query produced a sample for the pod. -/
structure NetEntry where
  rx_bytes_per_sec : Option Rat
  rx_kb_per_sec : Option Rat
  tx_bytes_per_sec : Option Rat
  tx_kb_per_sec : Option Rat
deriving DecidableEq

/-- Nested insertion-ordered mapping: namespace -> pod -> record. -/
abbrev NestedMap (α : Type) := List (String × List (String × α))

/-- The dict returned by `collect_pod_metrics` (the WorkloadMetrics of the
spec); `collection_time` is the `datetime.now().isoformat()` string, taken
here as a parameter since wall-clock time is external. -/
structure PodMetrics where
  namespaces : List String
  collection_time : String
  duration_minutes : Nat
  cpu : NestedMap CpuEntry
  memory : NestedMap MemEntry
  network : NestedMap NetEntry
deriving DecidableEq

/-- The per-host record written into `metrics['ingress'][host]`; every key is
optional because each comes from an independent query. -/
structure IngressEntry where
  total_requests : Option Int
  requests_per_sec : Option Rat
  p50_latency_ms : Option Rat
  p95_latency_ms : Option Rat
  p99_latency_ms : Option Rat
deriving DecidableEq

/-- The dict returned by `collect_ingress_metrics`. -/
structure IngressMetrics where
  hosts : List String
  ingress : List (String × IngressEntry)
deriving DecidableEq

/-- Python dict assignment `d[k] = v`: replace in place, else append. -/
def alistSet {α : Type} : List (String × α) → String → α → List (String × α)
  | [], k, v => [(k, v)]
  | (k', v') :: rest, k, v =>
      if k' = k then (k', v) :: rest else (k', v') :: alistSet rest k v

/-- The collectors' nested-write pattern
`if a not in m: m[a] = {}` followed by an update of `m[a][b]`. -/
def nestedSet {α : Type} (m : NestedMap α) (a b : String) (f : Option α → α) : NestedMap α :=
  let inner := (lookupA m a).getD []
  alistSet m a (alistSet inner b (f (lookupA inner b)))

/-- Lookup of `m[a][b]` across the two levels. -/
def nestedLookup {α : Type} (m : NestedMap α) (a b : String) : Option α :=
  (lookupA m a).bind (fun inner => lookupA inner b)

/-! ## Collectors -/

/-- `item['metric'].get(key, 'unknown')`.  Label values are strings in the
envelope consumed here (spec §4.1); a non-string label value is outside the
model and is mapped to `none`. -/
def labelOf (metric : Json) (key : String) : Option String := do
  let v ← pyGet metric key (.str "unknown")
  match v with
  | .str s => some s
  | _ => none

/-- Read one result row of a workload query:
`ns = item['metric'].get('namespace', 'unknown')`,
`pod = item['metric'].get('pod', 'unknown')`, `value = float(item['value'][1])`. -/
def readPodSample (item : Json) : Option (String × String × Rat) := do
  let metric ← getItem item "metric"
  let ns ← labelOf metric "namespace"
  let pod ← labelOf metric "pod"
  let v ← getItem item "value"
  let v1 ← index v 1
  let value ← pyFloat v1
  return (ns, pod, value)

/-- Read one result row of an ingress query:
`host = item['metric'].get('host', 'unknown')`, `value = float(item['value'][1])`. -/
def readHostSample (item : Json) : Option (String × Rat) := do
  let metric ← getItem item "metric"
  let host ← labelOf metric "host"
  let v ← getItem item "value"
  let v1 ← index v 1
  let value ← pyFloat v1
  return (host, value)

/-- One `if result.get('status') == 'success': for item in
result.get('data', {}).get('result', []): ...` block of the workload
collector, folding rows into the nested mapping with per-row writer `f`. -/
def processPodFamily {α : Type} (result : Json) (f : Rat → Option α → α)
    (acc : NestedMap α) : Option (NestedMap α) := do
  let st ← pyGet result "status" .null
  if st.strEq "success" then
    let dataJ ← pyGet result "data" (.obj [])
    let res ← pyGet dataJ "result" (.arr [])
    let rows ← pyIter res
    rows.foldlM (fun m item => do
      let s ← readPodSample item
      return nestedSet m s.1 s.2.1 (f s.2.2)) acc
  else
    return acc

/-- Same guard-and-fold for the ingress collector's single-level mapping. -/
def processHostFamily (result : Json) (f : Rat → Option IngressEntry → IngressEntry)
    (acc : List (String × IngressEntry)) : Option (List (String × IngressEntry)) := do
  let st ← pyGet result "status" .null
  if st.strEq "success" then
    let dataJ ← pyGet result "data" (.obj [])
    let res ← pyGet dataJ "result" (.arr [])
    let rows ← pyIter res
    rows.foldlM (fun m item => do
      let s ← readHostSample item
      return alistSet m s.1 (f s.2 (lookupA m s.1))) acc
  else
    return acc

/-- CPU row: `{'usage_cores': round(v, 4), 'usage_millicores': round(v*1000, 2)}`. -/
def cpuUpd (v : Rat) (_ : Option CpuEntry) : CpuEntry :=
  { usage_cores := pyRound v 4, usage_millicores := pyRound (ratMul v 1000) 2 }

/-- Memory row: `{'usage_bytes': round(v, 0), 'usage_mb': round(v/(1024*1024), 2)}`. -/
def memUpd (v : Rat) (_ : Option MemEntry) : MemEntry :=
  { usage_bytes := pyRound v 0, usage_mb := pyRound (ratDiv v (ratMul 1024 1024)) 2 }

/-- The empty dict a network pod record starts from. -/
def netEmpty : NetEntry := ⟨none, none, none, none⟩

/-- Receive row: sets only the two rx keys of the (possibly existing) record. -/
def rxUpd (v : Rat) (o : Option NetEntry) : NetEntry :=
  { o.getD netEmpty with
    rx_bytes_per_sec := some (pyRound v 2), rx_kb_per_sec := some (pyRound (ratDiv v 1024) 2) }

/-- Transmit row: sets only the two tx keys of the (possibly existing) record. -/
def txUpd (v : Rat) (o : Option NetEntry) : NetEntry :=
  { o.getD netEmpty with
    tx_bytes_per_sec := some (pyRound v 2), tx_kb_per_sec := some (pyRound (ratDiv v 1024) 2) }

/-- `collect_pod_metrics(client, namespaces, duration_minutes)`; `client` is the
transport oracle mapping a query string to its JSON envelope (`none` = transport
failure, which propagates). -/
def collect_pod_metrics (client : String → Option Json) (namespaces : List String)
    (duration_minutes : Nat) (collection_time : String) : Option PodMetrics := do
  let cpu_result ← client (cpu_query namespaces duration_minutes)
  let cpu ← processPodFamily cpu_result cpuUpd []
  let mem_result ← client (mem_query namespaces)
  let memory ← processPodFamily mem_result memUpd []
  let net_rx_result ← client (net_rx_query namespaces duration_minutes)
  let net_tx_result ← client (net_tx_query namespaces duration_minutes)
  let net1 ← processPodFamily net_rx_result rxUpd []
  let network ← processPodFamily net_tx_result txUpd net1
  return { namespaces := namespaces, collection_time := collection_time,
           duration_minutes := duration_minutes, cpu := cpu, memory := memory,
           network := network }

/-- The empty dict a host record starts from. -/
def ingressEmpty : IngressEntry := ⟨none, none, none, none, none⟩

/-- `metrics['ingress'][host]['total_requests'] = int(value)`. -/
def reqUpd (v : Rat) (o : Option IngressEntry) : IngressEntry :=
  { o.getD ingressEmpty with total_requests := some (pyInt v) }

/-- `metrics['ingress'][host]['requests_per_sec'] = round(value, 2)`. -/
def rateUpd (v : Rat) (o : Option IngressEntry) : IngressEntry :=
  { o.getD ingressEmpty with requests_per_sec := some (pyRound v 2) }

/-- `metrics['ingress'][host]['p50_latency_ms'] = round(value*1000, 2)`. -/
def p50Upd (v : Rat) (o : Option IngressEntry) : IngressEntry :=
  { o.getD ingressEmpty with p50_latency_ms := some (pyRound (ratMul v 1000) 2) }

/-- `metrics['ingress'][host]['p95_latency_ms'] = round(value*1000, 2)`. -/
def p95Upd (v : Rat) (o : Option IngressEntry) : IngressEntry :=
  { o.getD ingressEmpty with p95_latency_ms := some (pyRound (ratMul v 1000) 2) }

/-- `metrics['ingress'][host]['p99_latency_ms'] = round(value*1000, 2)`. -/
def p99Upd (v : Rat) (o : Option IngressEntry) : IngressEntry :=
  { o.getD ingressEmpty with p99_latency_ms := some (pyRound (ratMul v 1000) 2) }

/-- `collect_ingress_metrics(client, hosts, duration_minutes)`; the percentile
loop `for (0.50, 'p50'), (0.95, 'p95'), (0.99, 'p99')` is unrolled. -/
def collect_ingress_metrics (client : String → Option Json) (hosts : List String)
    (duration_minutes : Nat) : Option IngressMetrics := do
  let req_result ← client (req_query hosts)
  let i1 ← processHostFamily req_result reqUpd []
  let rate_result ← client (rate_query hosts duration_minutes)
  let i2 ← processHostFamily rate_result rateUpd i1
  let l50_result ← client (latency_query "0.5" hosts duration_minutes)
  let i3 ← processHostFamily l50_result p50Upd i2
  let l95_result ← client (latency_query "0.95" hosts duration_minutes)
  let i4 ← processHostFamily l95_result p95Upd i3
  let l99_result ← client (latency_query "0.99" hosts duration_minutes)
  let i5 ← processHostFamily l99_result p99Upd i4
  return { hosts := hosts, ingress := i5 }

/-- The body of `PrometheusClient.get_scalar_value` after the transport call:
`if result.get('status') == 'success' and result.get('data', {}).get('result'):
return float(result['data']['result'][0]['value'][1])` else `0.0`. -/
def scalar_from_envelope (result : Json) : Option Rat := do
  let st ← pyGet result "status" .null
  if st.strEq "success" then
    let dataJ ← pyGet result "data" (.obj [])
    let res ← pyGet dataJ "result" .null
    if res.truthy then
      let d ← getItem result "data"
      let r ← getItem d "result"
      let first ← index r 0
      let v ← getItem first "value"
      let v1 ← index v 1
      pyFloat v1
    else
      return 0
  else
    return 0

/-- `PrometheusClient.get_scalar_value(promql)` over the transport oracle. -/
def get_scalar_value (client : String → Option Json) (promql : String) : Option Rat := do
  let result ← client promql
  scalar_from_envelope result

/-! ## Report renderer -/

/-- Pad a digit list on the left with zeros up to length `n`. -/
def padLeftZeros (s : List Char) (n : Nat) : List Char :=
  List.replicate (n - s.length) '0' ++ s

/-- Python `f"{x}"` / `str(x)` for a float `x`: the shortest decimal that
round-trips.  For the finite-decimal rationals produced by `pyRound` this is
the exact decimal expansion with trailing zeros stripped (and `.0` kept for
integral values); other rationals cannot occur as rendered values, but the
function stays total with a fraction fallback. -/
def fmtFloat (q : Rat) : String :=
  let sgn := if q < 0 then "-" else ""
  let a := if q < 0 then ratNeg q else q
  match (List.range 31).find? (fun k => (ratMul a (ratPow 10 k)).den = 1) with
  | some 0 => sgn ++ toString a.num ++ ".0"
  | some k =>
    let ds := padLeftZeros (toString (ratMul a (ratPow 10 k)).num).data (k + 1)
    sgn ++ String.mk (ds.take (ds.length - k)) ++ "." ++ String.mk (ds.drop (ds.length - k))
  | none => sgn ++ toString a.num ++ "/" ++ toString a.den

/-- Render a value from a nested `.get(...).get(...).get(field, 0)` chain: a
missing key yields the integer default `0`, a present float is formatted. -/
def fmtOpt (o : Option Rat) : String :=
  match o with
  | none => "0"
  | some q => fmtFloat q

/-- Same, for the integer `total_requests` field. -/
def fmtOptInt (o : Option Int) : String :=
  match o with
  | none => "0"
  | some n => toString n

/-- `pod[:40] + '...' if len(pod) > 40 else pod` (Python slices by code point). -/
def pod_display (pod : String) : String :=
  if pod.data.length > 40 then String.mk (pod.data.take 40) ++ "..." else pod

/-- The first two lines of the report (title and collection header). -/
def report_header (pm : PodMetrics) : String :=
  "## 📊 Resource Utilization Metrics\n\n" ++
    "*Collected at " ++ pm.collection_time ++ " (last " ++
    toString pm.duration_minutes ++ " minutes)*\n\n"

/-- The pod table's section title, header row and separator row. -/
def pod_table_header : String :=
  "### Pod Resource Usage\n\n" ++
    "| Namespace | Pod | CPU (millicores) | Memory (MB) | Network RX (KB/s) | Network TX (KB/s) |\n" ++
    "|-----------|-----|------------------|-------------|-------------------|-------------------|\n"

/-- The body of the renderer's inner loop: four defaulted lookups and one row. -/
def renderPodRow (pm : PodMetrics) (ns pod : String) : String :=
  let cpu := (nestedLookup pm.cpu ns pod).map (fun e => e.usage_millicores)
  let mem := (nestedLookup pm.memory ns pod).map (fun e => e.usage_mb)
  let rx := (nestedLookup pm.network ns pod).bind (fun e => e.rx_kb_per_sec)
  let tx := (nestedLookup pm.network ns pod).bind (fun e => e.tx_kb_per_sec)
  "| " ++ ns ++ " | " ++ pod_display pod ++ " | " ++ fmtOpt cpu ++ " | " ++
    fmtOpt mem ++ " | " ++ fmtOpt rx ++ " | " ++ fmtOpt tx ++ " |\n"

/-- `for ns in pod_metrics.get('cpu', {}): for pod in pod_metrics['cpu'].get(ns, {}): ...`. -/
def podRows (pm : PodMetrics) : List String :=
  (pm.cpu.map Prod.fst).flatMap (fun ns =>
    (((lookupA pm.cpu ns).getD []).map Prod.fst).map (fun pod => renderPodRow pm ns pod))

/-- One row of the ingress table, all five values defaulting to `0`. -/
def renderIngressRow (host : String) (data : IngressEntry) : String :=
  "| " ++ host ++ " | " ++ fmtOptInt data.total_requests ++ " | " ++
    fmtOpt data.requests_per_sec ++ " | " ++ fmtOpt data.p50_latency_ms ++ " | " ++
    fmtOpt data.p95_latency_ms ++ " | " ++ fmtOpt data.p99_latency_ms ++ " |\n"

/-- The ingress table's section title, header row and separator row. -/
def ingress_table_header : String :=
  "\n### Ingress Controller Metrics (from Prometheus)\n\n" ++
    "| Host | Requests | Req/sec | p50 (ms) | p95 (ms) | p99 (ms) |\n" ++
    "|------|----------|---------|----------|----------|----------|\n"

/-- `if ingress_metrics.get('ingress'): ...` — rendered only when non-empty. -/
def ingress_section (im : IngressMetrics) : String :=
  if im.ingress.isEmpty then ""
  else ingress_table_header ++
    String.join (im.ingress.map (fun p => renderIngressRow p.1 p.2))

/-- `generate_markdown_report(pod_metrics, ingress_metrics)`. -/
def generate_markdown_report (pod_metrics : PodMetrics) (ingress_metrics : IngressMetrics) : String :=
  report_header pod_metrics ++ pod_table_header ++
    String.join (podRows pod_metrics) ++ ingress_section ingress_metrics ++ "\n"

/-- Every (namespace, pod) pair present in the CPU mapping, in insertion order. -/
def cpuPairs (pm : PodMetrics) : List (String × String) :=
  pm.cpu.flatMap (fun p => p.2.map (fun q => (p.1, q.1)))

/-- The data shown in one pod table row. -/
structure RowData where
  ns : String
  pod : String
  cpu : Option Rat
  mem : Option Rat
  rx : Option Rat
  tx : Option Rat

/-- Modelled from the spec (§4.4): one row per (namespace, pod) pair of the
CPU mapping in insertion order, cross-referencing the memory and network
mappings, absent values to be substituted by `0` at render time. -/
def spec_row_data (pm : PodMetrics) : List RowData :=
  (cpuPairs pm).map (fun p =>
    { ns := p.1, pod := p.2,
      cpu := (nestedLookup pm.cpu p.1 p.2).map (fun e => e.usage_millicores),
      mem := (nestedLookup pm.memory p.1 p.2).map (fun e => e.usage_mb),
      rx := (nestedLookup pm.network p.1 p.2).bind (fun e => e.rx_kb_per_sec),
      tx := (nestedLookup pm.network p.1 p.2).bind (fun e => e.tx_kb_per_sec) })

/-- Render one spec-side row. -/
def renderRowData (r : RowData) : String :=
  "| " ++ r.ns ++ " | " ++ pod_display r.pod ++ " | " ++ fmtOpt r.cpu ++ " | " ++
    fmtOpt r.mem ++ " | " ++ fmtOpt r.rx ++ " | " ++ fmtOpt r.tx ++ " |\n"

/-! ## Config loader and argument resolution -/

/-- Characters allowed in a URL scheme. -/
def isSchemeChar (c : Char) : Bool :=
  c.isAlpha || c.isDigit || c == '+' || c == '-' || c == '.'

/-- Strip a leading `scheme:` when present and well-formed. -/
def dropScheme (cs : List Char) : List Char :=
  let pre := cs.takeWhile (fun c => c != ':')
  if pre.length < cs.length && !pre.isEmpty &&
      (match pre with | c :: _ => c.isAlpha | [] => false) && pre.all isSchemeChar
  then cs.drop (pre.length + 1)
  else cs

/-- Modelled from the spec (glossary: authority component = the host[:port]
portion of a URL) and the behaviour of the external `urllib.parse.urlparse`:
the netloc is present only when `//` follows the optional scheme, and runs to
the first `/`, `?` or `#`. -/
def urlNetloc (url : String) : String :=
  match dropScheme url.data with
  | '/' :: '/' :: r => String.mk (r.takeWhile (fun c => c != '/' && c != '?' && c != '#'))
  | _ => ""

/-- Python `key in entry`: dict key test, substring test on strings; list
membership would need value equality and only dict entries occur here
(spec §3, UrlsConfigEntry), so other receivers are outside the model. -/
def pyContainsKey (j : Json) (k : String) : Option Bool :=
  match j with
  | .obj kvs => some (lookupA kvs k).isSome
  | .str s => some ((List.range (s.data.length + 1)).any
      (fun i => List.isPrefixOf k.data (s.data.drop i)))
  | _ => none

/-- `set.add` modelled as an insertion-ordered duplicate-free list (the Python
set's iteration order is unspecified; all claims about it are order-free). -/
def pySetAdd (l : List String) (s : String) : List String :=
  if s ∈ l then l else l ++ [s]

/-- One iteration of the `for entry in urls_config` loop of
`load_config_from_urls_file`: collect the `namespace` field, then append the
netloc of a present non-empty `url`.  A non-string namespace value would join
a set of strings and is outside the model; a truthy non-string url would reach
`urlparse` and raise. -/
def load_config_step (acc : List String × List String) (entry : Json) :
    Option (List String × List String) := do
  let hasNs ← pyContainsKey entry "namespace"
  let namespaces ←
    if hasNs then do
      let nv ← getItem entry "namespace"
      match nv with
      | .str s => some (pySetAdd acc.1 s)
      | _ => none
    else
      some acc.1
  let url ← pyGet entry "url" (.str "")
  match url with
  | .str s =>
    if s = "" then some (namespaces, acc.2)
    else if urlNetloc s = "" then some (namespaces, acc.2)
    else some (namespaces, acc.2 ++ [urlNetloc s])
  | j => if j.truthy then none else some (namespaces, acc.2)

/-- `load_config_from_urls_file` over the parsed JSON content of the file
(file IO and `json.load` are external): derive the namespace set and host
list, always adding the `ingress-nginx` namespace at the end. -/
def load_config_from_urls_file (urls_config : Json) : Option (List String × List String) := do
  let entries ← pyIter urls_config
  let acc ← entries.foldlM load_config_step ([], [])
  return (pySetAdd acc.1 "ingress-nginx", acc.2)

/-- `[x.strip() for x in s.split(',')]`. -/
def csvList (s : String) : List String :=
  (s.splitOn ",").map String.trim

/-- Python truthiness of an optional string argument (absent or empty ⇒ false). -/
def optTruthy (o : Option String) : Bool :=
  match o with
  | some s => s != ""
  | none => false

def default_namespaces : List String := ["default", "ingress-nginx"]

def default_hosts : List String := ["foo.localhost", "bar.localhost"]

/-- The branch of `main()` that chooses the namespace and host lists.
`argparse`, `os.path.isfile` and the config file's content are external and
appear as parameters: `isfile` is the file-existence oracle and
`file_namespaces`/`file_hosts` stand for `load_config_from_urls_file`'s
result on the file named by `urls`. -/
def resolve_namespaces_hosts (urls : Option String) (isfile : String → Bool)
    (file_namespaces file_hosts : List String)
    (namespaces_arg hosts_arg : Option String) : List String × List String :=
  if optTruthy urls && isfile (urls.getD "") then
    ((if optTruthy namespaces_arg then csvList (namespaces_arg.getD "") else file_namespaces),
     (if optTruthy hosts_arg then csvList (hosts_arg.getD "") else file_hosts))
  else
    ((if optTruthy namespaces_arg then csvList (namespaces_arg.getD "") else default_namespaces),
     (if optTruthy hosts_arg then csvList (hosts_arg.getD "") else default_hosts))

/-- The guard `result.get('status') == 'success'` of the collectors, as a
predicate on the envelope's key-value list. -/
def statusIsSuccess (kvs : List (String × Json)) : Bool :=
  ((lookupA kvs "status").getD .null).strEq "success"

/-- An envelope (known to be a JSON object) whose deviation from the
well-formed shape is a non-success status, a missing `data` key, or a
missing or empty `result` vector. -/
def NoDataEnvelope (kvs : List (String × Json)) : Prop :=
  statusIsSuccess kvs = false
  ∨ lookupA kvs "data" = none
  ∨ (∃ dkvs, lookupA kvs "data" = some (.obj dkvs) ∧
      (lookupA dkvs "result" = none ∨ lookupA dkvs "result" = some (.arr [])))

/-- Split a character list at every occurrence of a separator (the inverse of
joining with the separator); used to state what the generated query selectors
contain. -/
def splitSep (sep : Char) : List Char → List (List Char)
  | [] => [[]]
  | c :: cs =>
    match splitSep sep cs with
    | [] => [[c]]
    | r :: rs => if c = sep then [] :: r :: rs else (c :: r) :: rs

/-- Read every row with `g`, failing if any row fails. -/
def optionMapList {β : Type} (g : Json → Option β) : List Json → Option (List β)
  | [] => some []
  | r :: rs => (g r).bind (fun x => (optionMapList g rs).bind (fun xs => some (x :: xs)))

/-- The (namespace, pod, value) samples a workload query's envelope carries
into the collector: empty when the guard rejects the envelope, `none` when a
row is malformed.  Mirrors the guard of `processPodFamily`. -/
def podSamples (result : Json) : Option (List (String × String × Rat)) := do
  let st ← pyGet result "status" .null
  if st.strEq "success" then
    let dataJ ← pyGet result "data" (.obj [])
    let res ← pyGet dataJ "result" (.arr [])
    let rows ← pyIter res
    optionMapList readPodSample rows
  else
    return []

/-- The (host, value) samples an ingress query's envelope carries into the
collector.  Mirrors the guard of `processHostFamily`. -/
def hostSamples (result : Json) : Option (List (String × Rat)) := do
  let st ← pyGet result "status" .null
  if st.strEq "success" then
    let dataJ ← pyGet result "data" (.obj [])
    let res ← pyGet dataJ "result" (.arr [])
    let rows ← pyIter res
    optionMapList readHostSample rows
  else
    return []

/-- A config-file entry (spec §3, UrlsConfigEntry): optional `namespace` and
`url` string fields. -/
structure UrlsEntry where
  nsField : Option String
  urlField : Option String

/-- The JSON object a `UrlsEntry` denotes. -/
def mkEntryJson (e : UrlsEntry) : Json :=
  .obj ((e.nsField.map (fun s => ("namespace", Json.str s))).toList ++
        (e.urlField.map (fun s => ("url", Json.str s))).toList)

/-- The host an entry contributes: the authority component of a present,
non-empty, host-bearing url. -/
def entryHost (e : UrlsEntry) : Option String :=
  e.urlField.bind (fun u =>
    if u = "" then none
    else if urlNetloc u = "" then none
    else some (urlNetloc u))

/-- A well-formed result row with the given label set and stringified value. -/
def sampleRow (labels : List (String × String)) (v : String) : Json :=
  .obj [("metric", .obj (labels.map (fun p => (p.1, Json.str p.2)))),
        ("value", .arr [.num 0, .str v])]

/-- A well-formed success envelope around the given result rows. -/
def sampleEnv (rows : List Json) : Json :=
  .obj [("status", .str "success"), ("data", .obj [("result", .arr rows)])]

/-- The envelope `e` carries at least one sample for the (namespace, pod)
pair `(a, b)` into the workload collector. -/
def SampleKey (e : Json) (a b : String) : Prop :=
  ∃ l v, podSamples e = some l ∧ (a, b, v) ∈ l

/-- The envelope `e` carries at least one sample for host `h` into the
ingress collector. -/
def HostSampleKey (e : Json) (h : String) : Prop :=
  ∃ l v, hostSamples e = some l ∧ (h, v) ∈ l

/-- Test fixture: workload/ingress envelopes with a pod (`db`) seen only by
the receive query and a host whose rate, p50 and p99 queries return no
data. -/
def fixtureCpuEnv : Json :=
  sampleEnv [sampleRow [("namespace", "default"), ("pod", "web")] "1.0"]

def fixtureMemEnv : Json := .obj [("status", .str "error")]

def fixtureRxEnv : Json :=
  sampleEnv [sampleRow [("namespace", "default"), ("pod", "web")] "100.5",
             sampleRow [("namespace", "default"), ("pod", "db")] "50.0"]

def fixtureTxEnv : Json :=
  sampleEnv [sampleRow [("namespace", "default"), ("pod", "web")] "10.0"]

def fixtureReqEnv : Json := sampleEnv [sampleRow [("host", "h")] "5.0"]

def fixtureRateEnv : Json := .obj [("status", .str "error")]

def fixtureP50Env : Json := sampleEnv []

def fixtureP95Env : Json := sampleEnv [sampleRow [("host", "h")] "0.01"]

def fixtureP99Env : Json := .obj [("status", .str "error")]

/-- Test fixture: the transport oracle serving the fixture envelopes. -/
def fixtureClient : String → Option Json := fun q =>
  if q = cpu_query ["default"] 5 then some fixtureCpuEnv
  else if q = mem_query ["default"] then some fixtureMemEnv
  else if q = net_rx_query ["default"] 5 then some fixtureRxEnv
  else if q = net_tx_query ["default"] 5 then some fixtureTxEnv
  else if q = req_query ["h"] then some fixtureReqEnv
  else if q = rate_query ["h"] 5 then some fixtureRateEnv
  else if q = latency_query "0.5" ["h"] 5 then some fixtureP50Env
  else if q = latency_query "0.95" ["h"] 5 then some fixtureP95Env
  else some fixtureP99Env

/-- Test fixture: what `collect_pod_metrics` produces from the fixture
envelopes (note the partial network record for `db`). -/
def fixturePod : PodMetrics :=
  { namespaces := ["default"], collection_time := "T", duration_minutes := 5,
    cpu := [("default", [("web", { usage_cores := 1, usage_millicores := 1000 })])],
    memory := [],
    network := [("default",
      [("web", { rx_bytes_per_sec := some (Rat.divInt 201 2),
                 rx_kb_per_sec := some (Rat.divInt 1 10),
                 tx_bytes_per_sec := some 10,
                 tx_kb_per_sec := some (Rat.divInt 1 100) }),
       ("db", { rx_bytes_per_sec := some 50,
                rx_kb_per_sec := some (Rat.divInt 1 20),
                tx_bytes_per_sec := none, tx_kb_per_sec := none })])] }

/-- Test fixture: what `collect_ingress_metrics` produces from the fixture
envelopes (rate, p50 and p99 keys omitted, not zeroed). -/
def fixtureIngress : IngressMetrics :=
  { hosts := ["h"], ingress := [("h",
    { total_requests := some 5, requests_per_sec := none,
      p50_latency_ms := none, p95_latency_ms := some 10, p99_latency_ms := none })] }

/-- Modelled from the spec: "`x` is `target` rounded to `n` decimals" — `x` is
an integer multiple of `10^-n` within half of `10^-n` of `target`. -/
def RoundedTo (x target : Rat) (n : Nat) : Prop :=
  (∃ m : Int, x = (m : Rat) / 10 ^ n) ∧ |x - target| ≤ 1 / (2 * 10 ^ n)

/-! # Theorems -/

theorem ratAdd_eq (a b : Rat) : ratAdd a b = a + b := by
  conv_rhs => rw [← Rat.num_divInt_den a, ← Rat.num_divInt_den b]
  rw [Rat.divInt_add_divInt _ _ (by exact_mod_cast a.den_nz) (by exact_mod_cast b.den_nz)]
  rw [ratAdd]

theorem ratMul_eq (a b : Rat) : ratMul a b = a * b := by
  conv_rhs => rw [← Rat.num_divInt_den a, ← Rat.num_divInt_den b]
  rw [Rat.divInt_mul_divInt']
  rfl

theorem ratDiv_eq (a b : Rat) : ratDiv a b = a / b := by
  conv_rhs => rw [← Rat.num_divInt_den a, ← Rat.num_divInt_den b]
  rw [Rat.divInt_div_divInt]
  rfl

theorem ratNeg_eq (a : Rat) : ratNeg a = -a := (Rat.neg_def a).symm

theorem ratSub_eq (a b : Rat) : ratSub a b = a - b := by
  rw [ratSub, ratAdd_eq, ratNeg_eq, sub_eq_add_neg]

theorem ratPow_eq (a : Rat) (n : Nat) : ratPow a n = a ^ n := by
  rw [ratPow, Rat.divInt_eq_div]
  push_cast
  rw [← div_pow, Rat.num_div_den]

theorem intToRat_eq (n : Int) : intToRat n = (n : Rat) := by
  rw [intToRat, Rat.divInt_one]

/-! ## Claim C1: `get_scalar_value` zero-default and float parse -/

/-- C1: for every response envelope, `get_scalar_value` returns exactly `0.0`
when the envelope's status is `"error"`, or when status is `"success"` with an
empty result vector, and returns the float parse of the first result's
`value[1]` when fed a well-formed single-result success envelope. -/
theorem scalar_value_c1 :
    (∀ (client : String → Option Json) (promql : String) (kvs : List (String × Json)),
      client promql = some (.obj kvs) →
      lookupA kvs "status" = some (.str "error") →
      get_scalar_value client promql = some 0)
  ∧ (∀ (client : String → Option Json) (promql : String)
      (kvs dkvs : List (String × Json)),
      client promql = some (.obj kvs) →
      lookupA kvs "status" = some (.str "success") →
      lookupA kvs "data" = some (.obj dkvs) →
      lookupA dkvs "result" = some (.arr []) →
      get_scalar_value client promql = some 0)
  ∧ (∀ (client : String → Option Json) (promql : String)
      (kvs dkvs : List (String × Json)) (m ts : Json) (s : String) (x : Rat),
      client promql = some (.obj kvs) →
      lookupA kvs "status" = some (.str "success") →
      lookupA kvs "data" = some (.obj dkvs) →
      lookupA dkvs "result" = some (.arr [.obj [("metric", m), ("value", .arr [ts, .str s])]]) →
      parseFloat s = some x →
      get_scalar_value client promql = some x) := by
  refine ⟨?_, ?_, ?_⟩
  · intro client promql kvs hc hs
    simp [get_scalar_value, scalar_from_envelope, pyGet, hc, hs, Json.strEq]
  · intro client promql kvs dkvs hc hs hd hr
    simp [get_scalar_value, scalar_from_envelope, pyGet, hc, hs, hd, hr, Json.strEq, Json.truthy]
  · intro client promql kvs dkvs m ts s x hc hs hd hr hp
    simp [get_scalar_value, scalar_from_envelope, pyGet, getItem, index, hc, hs, hd, hr,
      Json.strEq, Json.truthy, lookupA, pyFloat, hp]

/-- Witness for C1 at three concrete envelopes. -/
theorem scalar_value_c1_witness :
    get_scalar_value (fun _ => some (.obj [("status", .str "error")])) "up" = some 0
  ∧ get_scalar_value (fun _ => some (.obj [("status", .str "success"),
      ("data", .obj [("result", .arr [])])])) "up" = some 0
  ∧ get_scalar_value (fun _ => some (.obj [("status", .str "success"),
      ("data", .obj [("result", .arr [.obj [("metric", .obj []),
        ("value", .arr [.num 0, .str "42.5"])]])])])) "up" = some (Rat.divInt 85 2) :=
  ⟨scalar_value_c1.1 _ "up" _ rfl rfl,
   scalar_value_c1.2.1 _ "up" _ _ rfl rfl rfl rfl,
   scalar_value_c1.2.2 _ "up" _ _ _ _ _ _ rfl rfl rfl rfl (by decide)⟩

/-! ## Claim C2: deviant envelopes (corrected) -/

theorem scalar_from_envelope_noData {kvs : List (String × Json)} (h : NoDataEnvelope kvs) :
    scalar_from_envelope (.obj kvs) = some 0 := by
  rcases h with h | h | ⟨dkvs, hd, hr⟩
  · simp [statusIsSuccess] at h
    simp [scalar_from_envelope, pyGet, h]
  · by_cases hs : statusIsSuccess kvs
    · simp [statusIsSuccess] at hs
      simp [scalar_from_envelope, pyGet, hs, h, lookupA, Json.truthy]
    · simp [statusIsSuccess] at hs
      simp [scalar_from_envelope, pyGet, hs]
  · by_cases hs : statusIsSuccess kvs
    · simp [statusIsSuccess] at hs
      rcases hr with hr | hr <;>
        simp [scalar_from_envelope, pyGet, hs, hd, hr, lookupA, Json.truthy]
    · simp [statusIsSuccess] at hs
      simp [scalar_from_envelope, pyGet, hs]

theorem processPodFamily_noData {kvs : List (String × Json)} (h : NoDataEnvelope kvs)
    {α : Type} (f : Rat → Option α → α) (acc : NestedMap α) :
    processPodFamily (.obj kvs) f acc = some acc := by
  rcases h with h | h | ⟨dkvs, hd, hr⟩
  · simp [statusIsSuccess] at h
    simp [processPodFamily, pyGet, h]
  · by_cases hs : statusIsSuccess kvs
    · simp [statusIsSuccess] at hs
      simp [processPodFamily, pyGet, hs, h, lookupA, pyIter]
    · simp [statusIsSuccess] at hs
      simp [processPodFamily, pyGet, hs]
  · by_cases hs : statusIsSuccess kvs
    · simp [statusIsSuccess] at hs
      rcases hr with hr | hr <;>
        simp [processPodFamily, pyGet, hs, hd, hr, lookupA, pyIter]
    · simp [statusIsSuccess] at hs
      simp [processPodFamily, pyGet, hs]

theorem processHostFamily_noData {kvs : List (String × Json)} (h : NoDataEnvelope kvs)
    (f : Rat → Option IngressEntry → IngressEntry) (acc : List (String × IngressEntry)) :
    processHostFamily (.obj kvs) f acc = some acc := by
  rcases h with h | h | ⟨dkvs, hd, hr⟩
  · simp [statusIsSuccess] at h
    simp [processHostFamily, pyGet, h]
  · by_cases hs : statusIsSuccess kvs
    · simp [statusIsSuccess] at hs
      simp [processHostFamily, pyGet, hs, h, lookupA, pyIter]
    · simp [statusIsSuccess] at hs
      simp [processHostFamily, pyGet, hs]
  · by_cases hs : statusIsSuccess kvs
    · simp [statusIsSuccess] at hs
      rcases hr with hr | hr <;>
        simp [processHostFamily, pyGet, hs, hd, hr, lookupA, pyIter]
    · simp [statusIsSuccess] at hs
      simp [processHostFamily, pyGet, hs]

/-- C2 counterexample: a `success` envelope whose result vector holds a
malformed row (`{}`, lacking `metric` and `value`) makes every consumer raise
a `KeyError` (modelled `none`) — it is not treated as "no data". -/
theorem deviant_envelope_c2_counterexample :
    get_scalar_value (fun _ => some (.obj [("status", .str "success"),
      ("data", .obj [("result", .arr [.obj []])])])) "up" = none
  ∧ collect_pod_metrics (fun _ => some (.obj [("status", .str "success"),
      ("data", .obj [("result", .arr [.obj []])])])) ["default"] 5 "T" = none
  ∧ collect_ingress_metrics (fun _ => some (.obj [("status", .str "success"),
      ("data", .obj [("result", .arr [.obj []])])])) ["h"] 5 = none := by
  refine ⟨by decide, by decide, by decide⟩

/-- C2 (amended): an envelope whose shape deviates by a non-success status, a
missing `data` key, or a missing or empty `result` vector is treated as "no
data" by all query consumers — `get_scalar_value` yields `0.0` and the
collectors contribute no mapping entries — with no exception; a malformed
row inside a success envelope's non-empty result vector, by contrast, raises
(see the counterexample), and transport failures propagate. -/
theorem deviant_envelope_c2 (client : String → Option Json)
    (ns hosts : List String) (d : Nat) (t : String) (promql : String)
    (kScalar kCpu kMem kRx kTx kReq kRate k50 k95 k99 : List (String × Json))
    (cScalar : client promql = some (.obj kScalar)) (h0 : NoDataEnvelope kScalar)
    (cCpu : client (cpu_query ns d) = some (.obj kCpu)) (h1 : NoDataEnvelope kCpu)
    (cMem : client (mem_query ns) = some (.obj kMem)) (h2 : NoDataEnvelope kMem)
    (cRx : client (net_rx_query ns d) = some (.obj kRx)) (h3 : NoDataEnvelope kRx)
    (cTx : client (net_tx_query ns d) = some (.obj kTx)) (h4 : NoDataEnvelope kTx)
    (cReq : client (req_query hosts) = some (.obj kReq)) (h5 : NoDataEnvelope kReq)
    (cRate : client (rate_query hosts d) = some (.obj kRate)) (h6 : NoDataEnvelope kRate)
    (c50 : client (latency_query "0.5" hosts d) = some (.obj k50)) (h7 : NoDataEnvelope k50)
    (c95 : client (latency_query "0.95" hosts d) = some (.obj k95)) (h8 : NoDataEnvelope k95)
    (c99 : client (latency_query "0.99" hosts d) = some (.obj k99)) (h9 : NoDataEnvelope k99) :
    get_scalar_value client promql = some 0
  ∧ collect_pod_metrics client ns d t =
      some { namespaces := ns, collection_time := t, duration_minutes := d,
             cpu := [], memory := [], network := [] }
  ∧ collect_ingress_metrics client hosts d = some { hosts := hosts, ingress := [] } := by
  refine ⟨?_, ?_, ?_⟩
  · simp [get_scalar_value, cScalar, scalar_from_envelope_noData h0]
  · simp [collect_pod_metrics, cCpu, cMem, cRx, cTx, processPodFamily_noData h1,
      processPodFamily_noData h2, processPodFamily_noData h3, processPodFamily_noData h4]
  · simp [collect_ingress_metrics, cReq, cRate, c50, c95, c99,
      processHostFamily_noData h5, processHostFamily_noData h6, processHostFamily_noData h7,
      processHostFamily_noData h8, processHostFamily_noData h9]

/-- Witness for C2 (amended) with error-status envelopes everywhere. -/
theorem deviant_envelope_c2_witness :
    get_scalar_value (fun _ => some (.obj [("status", .str "error")])) "up" = some 0
  ∧ collect_pod_metrics (fun _ => some (.obj [("status", .str "error")])) ["default"] 5 "T" =
      some { namespaces := ["default"], collection_time := "T", duration_minutes := 5,
             cpu := [], memory := [], network := [] }
  ∧ collect_ingress_metrics (fun _ => some (.obj [("status", .str "error")])) ["h"] 5 =
      some { hosts := ["h"], ingress := [] } :=
  deviant_envelope_c2 (fun _ => some (.obj [("status", .str "error")]))
    ["default"] ["h"] 5 "T" "up" _ _ _ _ _ _ _ _ _ _
    rfl (Or.inl rfl) rfl (Or.inl rfl) rfl (Or.inl rfl) rfl (Or.inl rfl) rfl (Or.inl rfl)
    rfl (Or.inl rfl) rfl (Or.inl rfl) rfl (Or.inl rfl) rfl (Or.inl rfl) rfl (Or.inl rfl)

/-! ## Claim C5: namespace alternation in the generated queries -/

theorem splitSep_ne_nil (sep : Char) (l : List Char) : splitSep sep l ≠ [] := by
  induction l with
  | nil => simp [splitSep]
  | cons c cs ih =>
    rw [splitSep]
    rcases h : splitSep sep cs with _ | ⟨r, rs⟩
    · simp
    · by_cases hc : c = sep <;> simp [hc]

theorem splitSep_no_sep (sep : Char) (l : List Char) (h : sep ∉ l) :
    splitSep sep l = [l] := by
  induction l with
  | nil => rfl
  | cons c cs ih =>
    have hc : c ≠ sep := fun hh => h (hh ▸ List.mem_cons_self c cs)
    have hcs : sep ∉ cs := fun hh => h (List.mem_cons_of_mem c hh)
    rw [splitSep, ih hcs]
    simp [hc]

theorem splitSep_sep_append (sep : Char) (x t : List Char) (h : sep ∉ x) :
    splitSep sep (x ++ sep :: t) = x :: splitSep sep t := by
  induction x with
  | nil =>
    rw [List.nil_append, splitSep]
    rcases ht : splitSep sep t with _ | ⟨r, rs⟩
    · exact absurd ht (splitSep_ne_nil sep t)
    · simp
  | cons c cs ih =>
    have hc : c ≠ sep := fun hh => h (hh ▸ List.mem_cons_self c cs)
    have hcs : sep ∉ cs := fun hh => h (List.mem_cons_of_mem c hh)
    rw [List.cons_append, splitSep, ih hcs]
    simp [hc]

theorem splitSep_joined (sep : Char) (x : List Char) (xs : List (List Char))
    (hx : sep ∉ x) (hxs : ∀ y ∈ xs, sep ∉ y) :
    splitSep sep (x ++ (xs.map (fun y => sep :: y)).flatten) = x :: xs := by
  induction xs generalizing x with
  | nil => simpa using splitSep_no_sep sep x hx
  | cons y ys ih =>
    have h1 : x ++ ((y :: ys).map (fun y => sep :: y)).flatten =
        x ++ sep :: (y ++ (ys.map (fun y => sep :: y)).flatten) := by
      simp
    rw [h1, splitSep_sep_append sep x _ hx,
      ih y (hxs y (List.mem_cons_self y ys)) (fun z hz => hxs z (List.mem_cons_of_mem y hz))]

theorem length_filter_eq_one {α : Type} [DecidableEq α] {l : List α} {a : α}
    (hnd : l.Nodup) (ha : a ∈ l) : (l.filter (fun y => y = a)).length = 1 := by
  induction l with
  | nil => cases ha
  | cons x xs ih =>
    by_cases hxa : x = a
    · subst hxa
      have hx : x ∉ xs := (List.nodup_cons.mp hnd).1
      rw [List.filter_cons_of_pos (by simp)]
      have hnilf : xs.filter (fun y => y = x) = [] := by
        rw [List.filter_eq_nil_iff]
        intro b hb
        simp only [decide_eq_true_eq]
        intro hba
        exact hx (hba ▸ hb)
      rw [hnilf]
      rfl
    · have ha' : a ∈ xs := by
        rcases List.mem_cons.mp ha with h | h
        · exact absurd h.symm hxa
        · exact h
      rw [List.filter_cons_of_neg (by simp [hxa])]
      exact ih (List.nodup_cons.mp hnd).2 ha'

theorem intercalate_go_data (s : String) (as : List String) (acc : String) :
    (String.intercalate.go acc s as).data =
      acc.data ++ (as.map (fun a => s.data ++ a.data)).flatten := by
  induction as generalizing acc with
  | nil => simp [String.intercalate.go]
  | cons a as ih =>
    rw [show String.intercalate.go acc s (a :: as) =
          String.intercalate.go (acc ++ s ++ a) s as from rfl, ih]
    simp [String.data_append]

theorem ns_selector_data (x : String) (xs : List String) :
    (ns_selector (x :: xs)).data = x.data ++ (xs.map (fun a => '|' :: a.data)).flatten := by
  rw [ns_selector, show String.intercalate "|" (x :: xs) = String.intercalate.go x "|" xs
    from rfl, intercalate_go_data]
  rfl

theorem splitSep_ns_selector (ns : List String) (hne : ns ≠ [])
    (hsep : ∀ s ∈ ns, '|' ∉ s.data) :
    splitSep '|' (ns_selector ns).data = ns.map String.data := by
  rcases ns with _ | ⟨x, xs⟩
  · exact absurd rfl hne
  · rw [ns_selector_data]
    have := splitSep_joined '|' x.data (xs.map String.data)
      (hsep x (List.mem_cons_self x xs))
      (by
        intro y hy
        rcases List.mem_map.mp hy with ⟨a, ha, rfl⟩
        exact hsep a (List.mem_cons_of_mem x ha))
    rw [show (xs.map String.data).map (fun y => '|' :: y) =
          xs.map (fun a => '|' :: a.data) by simp] at this
    rw [this]
    rfl

/-- C5: for every non-empty namespace list of `|`-free distinct names, each of
the four generated workload query strings embeds the alternation selector
verbatim, and the selector is exactly the input names joined by `|`: splitting
it on `|` returns the names in input order, each distinct name once. -/
theorem query_selector_c5 (ns : List String) (d : Nat) (hne : ns ≠ [])
    (hsep : ∀ s ∈ ns, '|' ∉ s.data) (hnd : ns.Nodup) :
    (∃ p q, cpu_query ns d = p ++ ns_selector ns ++ q)
  ∧ (∃ p q, mem_query ns = p ++ ns_selector ns ++ q)
  ∧ (∃ p q, net_rx_query ns d = p ++ ns_selector ns ++ q)
  ∧ (∃ p q, net_tx_query ns d = p ++ ns_selector ns ++ q)
  ∧ splitSep '|' (ns_selector ns).data = ns.map String.data
  ∧ ∀ s ∈ ns,
      ((splitSep '|' (ns_selector ns).data).filter (fun y => y = s.data)).length = 1 := by
  have hsplit := splitSep_ns_selector ns hne hsep
  have hinj : Function.Injective String.data := by
    intro a b hab
    cases a
    cases b
    exact congrArg String.mk hab
  refine ⟨⟨"sum by (namespace, pod) (rate(container_cpu_usage_seconds_total\x7bnamespace=~\"",
      "\", container!=\"\"\x7d[" ++ toString d ++ "m]))", ?_⟩,
    ⟨"sum by (namespace, pod) (container_memory_working_set_bytes\x7bnamespace=~\"",
      "\", container!=\"\"\x7d)", ?_⟩,
    ⟨"sum by (namespace, pod) (rate(container_network_receive_bytes_total\x7bnamespace=~\"",
      "\"\x7d[" ++ toString d ++ "m]))", ?_⟩,
    ⟨"sum by (namespace, pod) (rate(container_network_transmit_bytes_total\x7bnamespace=~\"",
      "\"\x7d[" ++ toString d ++ "m]))", ?_⟩, hsplit, ?_⟩
  · simp [cpu_query, String.append_assoc]
  · simp [mem_query, String.append_assoc]
  · simp [net_rx_query, String.append_assoc]
  · simp [net_tx_query, String.append_assoc]
  · intro s hs
    rw [hsplit]
    exact length_filter_eq_one (hnd.map hinj) (List.mem_map_of_mem String.data hs)

/-- Witness for C5 at the default namespace list. -/
theorem query_selector_c5_witness :
    ((∃ p q, cpu_query ["default", "ingress-nginx"] 5 = p ++ ns_selector ["default", "ingress-nginx"] ++ q)
  ∧ (∃ p q, mem_query ["default", "ingress-nginx"] = p ++ ns_selector ["default", "ingress-nginx"] ++ q)
  ∧ (∃ p q, net_rx_query ["default", "ingress-nginx"] 5 = p ++ ns_selector ["default", "ingress-nginx"] ++ q)
  ∧ (∃ p q, net_tx_query ["default", "ingress-nginx"] 5 = p ++ ns_selector ["default", "ingress-nginx"] ++ q)
  ∧ splitSep '|' (ns_selector ["default", "ingress-nginx"]).data =
      ["default", "ingress-nginx"].map String.data
  ∧ ∀ s ∈ ["default", "ingress-nginx"],
      ((splitSep '|' (ns_selector ["default", "ingress-nginx"]).data).filter
        (fun y => y = s.data)).length = 1) :=
  query_selector_c5 ["default", "ingress-nginx"] 5 (by decide) (by decide) (by decide)

/-! ## Claim C9: pod identifier truncation is display-only -/

/-- C9: a pod identifier of at most 40 code points is displayed unchanged; a
longer one is displayed as its first 40 code points followed by the `...`
marker (43 code points in all); the row data driving the rendered table (and
hence the mapping serialized to JSON) keeps the untruncated identifier —
truncation happens only inside the row formatting. -/
theorem pod_truncation_c9 :
    (∀ pod : String, pod.data.length ≤ 40 → pod_display pod = pod)
  ∧ (∀ pod : String, 40 < pod.data.length →
      pod_display pod = String.mk (pod.data.take 40) ++ "..."
      ∧ (pod_display pod).data.length = 43)
  ∧ (∀ pm : PodMetrics,
      (spec_row_data pm).map (fun r => r.pod) = (cpuPairs pm).map Prod.snd) := by
  refine ⟨?_, ?_, ?_⟩
  · intro pod h
    rw [pod_display, if_neg (by omega)]
  · intro pod h
    have he : pod_display pod = String.mk (pod.data.take 40) ++ "..." := by
      rw [pod_display, if_pos (by omega)]
    refine ⟨he, ?_⟩
    rw [he, String.data_append]
    show (pod.data.take 40 ++ ['.', '.', '.']).length = 43
    have hlen : pod.length = pod.data.length := rfl
    simp [List.length_append, List.length_take]
    omega
  · intro pm
    simp [spec_row_data]

/-- Witness for C9 with a 45-character pod name and a short one. -/
theorem pod_truncation_c9_witness :
    pod_display "short" = "short"
  ∧ pod_display "abcdefghijklmnopqrstuvwxyz0123456789abcdefghi" =
      String.mk ("abcdefghijklmnopqrstuvwxyz0123456789abcdefghi".data.take 40) ++ "..."
  ∧ (pod_display "abcdefghijklmnopqrstuvwxyz0123456789abcdefghi").data.length = 43 :=
  ⟨pod_truncation_c9.1 "short" (by decide),
   (pod_truncation_c9.2.1 "abcdefghijklmnopqrstuvwxyz0123456789abcdefghi" (by decide)).1,
   (pod_truncation_c9.2.1 "abcdefghijklmnopqrstuvwxyz0123456789abcdefghi" (by decide)).2⟩

/-! ## Claim C7: explicit --namespaces / --hosts replace file-derived lists -/

/-- C7: whenever a non-empty `--namespaces` (resp. `--hosts`) argument is
supplied, the list used by the run is exactly its comma-split,
whitespace-stripped value, fully replacing anything derived from `--urls`,
for every file-derived value and file-existence outcome. -/
theorem explicit_args_c7 (urls : Option String) (isfile : String → Bool)
    (file_ns file_hosts : List String) (ns_arg hosts_arg : Option String) :
    (∀ s : String, ns_arg = some s → s ≠ "" →
      (resolve_namespaces_hosts urls isfile file_ns file_hosts ns_arg hosts_arg).1 = csvList s)
  ∧ (∀ s : String, hosts_arg = some s → s ≠ "" →
      (resolve_namespaces_hosts urls isfile file_ns file_hosts ns_arg hosts_arg).2 = csvList s) := by
  constructor <;> intro s hs hne <;> subst hs <;>
    rw [resolve_namespaces_hosts] <;> split <;> simp [optTruthy, hne]

/-- Witness for C7: both `--urls` (with existing file) and explicit arguments
supplied together; the explicit values win. -/
theorem explicit_args_c7_witness :
    (resolve_namespaces_hosts (some "urls.json") (fun _ => true)
      ["file-ns"] ["file-host"] (some "a, b") (some "h1,h2")).1 = csvList "a, b"
  ∧ (resolve_namespaces_hosts (some "urls.json") (fun _ => true)
      ["file-ns"] ["file-host"] (some "a, b") (some "h1,h2")).2 = csvList "h1,h2" :=
  ⟨(explicit_args_c7 (some "urls.json") (fun _ => true) ["file-ns"] ["file-host"]
      (some "a, b") (some "h1,h2")).1 "a, b" rfl (by decide),
   (explicit_args_c7 (some "urls.json") (fun _ => true) ["file-ns"] ["file-host"]
      (some "a, b") (some "h1,h2")).2 "h1,h2" rfl (by decide)⟩

/-! ## Claim C10: built-in defaults without a usable --urls file -/

/-- C10: when no usable `--urls` config file is given — the argument is absent
or empty, or names a file that does not exist (silently ignored) — every list
not supplied explicitly falls back to the built-in constants
`['default', 'ingress-nginx']` and `['foo.localhost', 'bar.localhost']`. -/
theorem default_fallback_c10 (urls : Option String) (isfile : String → Bool)
    (file_ns file_hosts : List String) (ns_arg hosts_arg : Option String)
    (hfile : optTruthy urls = false ∨ isfile (urls.getD "") = false) :
    default_namespaces = ["default", "ingress-nginx"]
  ∧ default_hosts = ["foo.localhost", "bar.localhost"]
  ∧ (optTruthy ns_arg = false →
      (resolve_namespaces_hosts urls isfile file_ns file_hosts ns_arg hosts_arg).1 =
        default_namespaces)
  ∧ (optTruthy hosts_arg = false →
      (resolve_namespaces_hosts urls isfile file_ns file_hosts ns_arg hosts_arg).2 =
        default_hosts) := by
  have hc : (optTruthy urls && isfile (urls.getD "")) = false := by
    rcases hfile with h | h <;> simp [h]
  refine ⟨rfl, rfl, ?_, ?_⟩ <;> intro h <;>
    simp [resolve_namespaces_hosts, hc, h]

/-- Witness for C10: a `--urls` path to a non-existent file and no explicit
lists. -/
theorem default_fallback_c10_witness :
    default_namespaces = ["default", "ingress-nginx"]
  ∧ default_hosts = ["foo.localhost", "bar.localhost"]
  ∧ (optTruthy (none : Option String) = false →
      (resolve_namespaces_hosts (some "missing.json") (fun _ => false)
        ["file-ns"] ["file-host"] none none).1 = default_namespaces)
  ∧ (optTruthy (none : Option String) = false →
      (resolve_namespaces_hosts (some "missing.json") (fun _ => false)
        ["file-ns"] ["file-host"] none none).2 = default_hosts) :=
  default_fallback_c10 (some "missing.json") (fun _ => false)
    ["file-ns"] ["file-host"] none none (Or.inr rfl)

/-! ## Claim C6: config-file loading -/

theorem pySetAdd_mem (l : List String) (t s : String) :
    s ∈ pySetAdd l t ↔ s ∈ l ∨ s = t := by
  rw [pySetAdd]
  split
  · constructor
    · exact Or.inl
    · rintro (h | rfl)
      · exact h
      · assumption
  · simp

theorem load_config_step_entry (e : UrlsEntry) (acc : List String × List String) :
    load_config_step acc (mkEntryJson e) =
      some ((match e.nsField with | some s => pySetAdd acc.1 s | none => acc.1),
            acc.2 ++ (entryHost e).toList) := by
  rcases e with ⟨ns, url⟩
  cases ns <;> cases url <;>
    simp only [load_config_step, mkEntryJson, entryHost, pyContainsKey, pyGet, getItem,
      lookupA, Option.map_none, Option.map_some, Option.toList, List.nil_append,
      List.cons_append, Option.bind] <;>
    simp <;> split_ifs <;> simp_all

theorem load_config_fold (es : List UrlsEntry) (acc : List String × List String) :
    (es.map mkEntryJson).foldlM load_config_step acc =
      some (es.foldl
              (fun ns e => match e.nsField with | some s => pySetAdd ns s | none => ns) acc.1,
            acc.2 ++ es.filterMap entryHost) := by
  induction es generalizing acc with
  | nil => simp
  | cons e es ih =>
    rw [List.map_cons, List.foldlM_cons, load_config_step_entry]
    show ((es.map mkEntryJson).foldlM load_config_step _) = _
    rw [ih]
    rcases hh : entryHost e with _ | h <;>
      simp [List.filterMap_cons, hh, List.append_assoc]

theorem mem_foldl_addNs (es : List UrlsEntry) (ns0 : List String) (s : String) :
    s ∈ es.foldl
        (fun ns e => match e.nsField with | some t => pySetAdd ns t | none => ns) ns0 ↔
      s ∈ ns0 ∨ ∃ e ∈ es, e.nsField = some s := by
  induction es generalizing ns0 with
  | nil => simp
  | cons e es ih =>
    rw [List.foldl_cons, ih]
    rcases hns : e.nsField with _ | t
    · simp only [List.mem_cons]
      constructor
      · rintro (h | ⟨e', he', hf⟩)
        · exact Or.inl h
        · exact Or.inr ⟨e', Or.inr he', hf⟩
      · rintro (h | ⟨e', he' | he', hf⟩)
        · exact Or.inl h
        · rw [he'] at hf
          rw [hf] at hns
          cases hns
        · exact Or.inr ⟨e', he', hf⟩
    · rw [pySetAdd_mem]
      constructor
      · rintro ((h | rfl) | ⟨e', he', hf⟩)
        · exact Or.inl h
        · exact Or.inr ⟨e, List.mem_cons_self e es, hns⟩
        · exact Or.inr ⟨e', List.mem_cons_of_mem e he', hf⟩
      · rintro (h | ⟨e', he', hf⟩)
        · exact Or.inl (Or.inl h)
        · rcases List.mem_cons.mp he' with rfl | he''
          · rw [hns] at hf
            cases hf
            exact Or.inl (Or.inr rfl)
          · exact Or.inr ⟨e', he'', hf⟩

/-- C6: for every entry sequence, the derived namespace list is — as a set —
exactly the present `namespace` fields plus the fixed `"ingress-nginx"`, and
the derived host list is the authority component of each present, non-empty,
host-bearing `url`, in entry order; in particular the spec's two-entry example
yields ({a, b, ingress-nginx}, [h1.example]). -/
theorem load_config_c6 :
    (∀ es : List UrlsEntry, ∃ nsl : List String,
      load_config_from_urls_file (.arr (es.map mkEntryJson)) =
        some (nsl, es.filterMap entryHost)
      ∧ ∀ s, s ∈ nsl ↔ (∃ e ∈ es, e.nsField = some s) ∨ s = "ingress-nginx")
  ∧ load_config_from_urls_file (.arr [
      .obj [("namespace", .str "a"), ("url", .str "http://h1.example")],
      .obj [("namespace", .str "b")]]) =
      some (["a", "b", "ingress-nginx"], ["h1.example"]) := by
  constructor
  · intro es
    refine ⟨pySetAdd
      (es.foldl (fun ns e => match e.nsField with | some s => pySetAdd ns s | none => ns) [])
      "ingress-nginx", ?_, ?_⟩
    · rw [load_config_from_urls_file]
      show (pyIter (.arr (es.map mkEntryJson))).bind _ = _
      rw [show pyIter (.arr (es.map mkEntryJson)) = some (es.map mkEntryJson) from rfl]
      rw [Option.some_bind, load_config_fold]
      rfl
    · intro s
      rw [pySetAdd_mem, mem_foldl_addNs]
      simp
  · decide

/-! ## Claim C4: unit conversions and rounding -/

theorem ratFloor_eq (q : Rat) : q.floor = ⌊q⌋ := by
  have h1 : q.floor ≤ ⌊q⌋ := Int.le_floor.mpr (Rat.le_floor.mp (le_refl q.floor))
  have h2 : ⌊q⌋ ≤ q.floor := Rat.le_floor.mpr (Int.floor_le q)
  omega

theorem roundHalfEven_close (q : Rat) : |(roundHalfEven q : Rat) - q| ≤ 1 / 2 := by
  have hfl : ratSub q (intToRat q.floor) = q - (⌊q⌋ : Rat) := by
    rw [ratSub_eq, intToRat_eq, ratFloor_eq]
  have hhalf : Rat.divInt 1 2 = 1 / 2 := by
    rw [Rat.divInt_eq_div]
    norm_num
  have hle : (⌊q⌋ : Rat) ≤ q := Int.floor_le q
  have hlt : q < ⌊q⌋ + 1 := Int.lt_floor_add_one q
  rw [roundHalfEven, hfl, hhalf, ratFloor_eq]
  split_ifs with h1 h2 h3 <;> rw [abs_le] <;> constructor <;> push_cast <;>
    linarith

theorem pyRound_eq_div (q : Rat) (n : Nat) :
    pyRound q n = ((roundHalfEven (q * 10 ^ n) : Int) : Rat) / 10 ^ n := by
  rw [pyRound, ratDiv_eq, intToRat_eq, ratPow_eq, ratMul_eq]

theorem pyRound_roundedTo (q : Rat) (n : Nat) : RoundedTo (pyRound q n) q n := by
  constructor
  · exact ⟨roundHalfEven (q * 10 ^ n), pyRound_eq_div q n⟩
  · have hp : (0 : Rat) < 10 ^ n := by positivity
    have h := roundHalfEven_close (q * 10 ^ n)
    rw [pyRound_eq_div]
    have heq : ((roundHalfEven (q * 10 ^ n) : Int) : Rat) / 10 ^ n - q =
        (((roundHalfEven (q * 10 ^ n) : Int) : Rat) - q * 10 ^ n) / 10 ^ n := by
      field_simp
      ring
    rw [heq, abs_div, abs_of_pos hp, div_le_div_iff₀ hp (by positivity)]
    calc |((roundHalfEven (q * 10 ^ n) : Int) : Rat) - q * 10 ^ n| * (2 * 10 ^ n)
        ≤ (1 / 2) * (2 * 10 ^ n) := by
          have : (0 : Rat) ≤ 2 * 10 ^ n := by positivity
          exact mul_le_mul_of_nonneg_right h this
      _ = 1 * 10 ^ n := by ring

/-- C4: the collectors' per-sample unit conversions and roundings — cores
to 4 decimals; millicores (`v*1000`), MB (`v/1048576`), KB/s (`v/1024`) and
latency milliseconds (`v*1000`) to 2 decimals; raw bytes to 0 decimals — and
the conversions are exact on the spec's examples fed through the collectors:
1.0 core → 1000.0 millicores, 1048576 bytes → 1.0 MB, 1024 bytes/s →
1.0 KB/s, 0.0953 s → 95.3 ms. -/
theorem unit_conversions_c4 :
    (∀ v : Rat,
      RoundedTo (cpuUpd v none).usage_cores v 4
      ∧ RoundedTo (cpuUpd v none).usage_millicores (v * 1000) 2
      ∧ RoundedTo (memUpd v none).usage_bytes v 0
      ∧ RoundedTo (memUpd v none).usage_mb (v / 1048576) 2
      ∧ (∃ x, (rxUpd v none).rx_kb_per_sec = some x ∧ RoundedTo x (v / 1024) 2)
      ∧ (∃ x, (rxUpd v none).rx_bytes_per_sec = some x ∧ RoundedTo x v 2)
      ∧ (∃ x, (txUpd v none).tx_kb_per_sec = some x ∧ RoundedTo x (v / 1024) 2)
      ∧ (∃ x, (p50Upd v none).p50_latency_ms = some x ∧ RoundedTo x (v * 1000) 2))
  ∧ collect_pod_metrics (fun q =>
      if q = cpu_query ["default"] 5 then
        some (sampleEnv [sampleRow [("namespace", "default"), ("pod", "web")] "1.0"])
      else if q = mem_query ["default"] then
        some (sampleEnv [sampleRow [("namespace", "default"), ("pod", "web")] "1048576"])
      else
        some (sampleEnv [sampleRow [("namespace", "default"), ("pod", "web")] "1024"]))
      ["default"] 5 "T" =
      some { namespaces := ["default"], collection_time := "T", duration_minutes := 5,
             cpu := [("default", [("web", { usage_cores := 1, usage_millicores := 1000 })])],
             memory := [("default", [("web", { usage_bytes := 1048576, usage_mb := 1 })])],
             network := [("default", [("web",
               { rx_bytes_per_sec := some 1024, rx_kb_per_sec := some 1,
                 tx_bytes_per_sec := some 1024, tx_kb_per_sec := some 1 })])] }
  ∧ collect_ingress_metrics (fun q =>
      if q = req_query ["h"] then some (sampleEnv [sampleRow [("host", "h")] "10.0"])
      else if q = rate_query ["h"] 5 then some (sampleEnv [sampleRow [("host", "h")] "2.5"])
      else if q = latency_query "0.99" ["h"] 5 then
        some (sampleEnv [sampleRow [("host", "h")] "0.2"])
      else some (sampleEnv [sampleRow [("host", "h")] "0.0953"]))
      ["h"] 5 =
      some { hosts := ["h"], ingress := [("h",
        { total_requests := some 10, requests_per_sec := some (Rat.divInt 5 2),
          p50_latency_ms := some (Rat.divInt 953 10),
          p95_latency_ms := some (Rat.divInt 953 10),
          p99_latency_ms := some 200 })] } := by
  refine ⟨?_, by decide, by decide⟩
  intro v
  have hmb : ratDiv v (ratMul 1024 1024) = v / 1048576 := by
    rw [ratDiv_eq, ratMul_eq]
    norm_num
  have hkb : ratDiv v 1024 = v / 1024 := by
    rw [ratDiv_eq]
  have hms : ratMul v 1000 = v * 1000 := by
    rw [ratMul_eq]
  refine ⟨pyRound_roundedTo v 4, ?_, pyRound_roundedTo v 0, ?_,
    ⟨_, rfl, ?_⟩, ⟨_, rfl, pyRound_roundedTo v 2⟩, ⟨_, rfl, ?_⟩, ⟨_, rfl, ?_⟩⟩
  · rw [show (cpuUpd v none).usage_millicores = pyRound (v * 1000) 2 by rw [cpuUpd, hms]]
    exact pyRound_roundedTo (v * 1000) 2
  · rw [show (memUpd v none).usage_mb = pyRound (v / 1048576) 2 by rw [memUpd, hmb]]
    exact pyRound_roundedTo (v / 1048576) 2
  · rw [hkb]
    exact pyRound_roundedTo (v / 1024) 2
  · rw [hkb]
    exact pyRound_roundedTo (v / 1024) 2
  · rw [hms]
    exact pyRound_roundedTo (v * 1000) 2

/-! ## Claim C3: CPU-driven row enumeration in the renderer -/

theorem lookupA_cons_self {α : Type} (k : String) (v : α) (t : List (String × α)) :
    lookupA ((k, v) :: t) k = some v := by
  simp [lookupA]

theorem lookupA_cons_ne {α : Type} {k k' : String} (v : α) (t : List (String × α))
    (h : k ≠ k') : lookupA ((k, v) :: t) k' = lookupA t k' := by
  simp [lookupA, h]

theorem keyed_rows_eq (g : String → String → String)
    (l : List (String × List (String × CpuEntry)))
    (hnd : (l.map Prod.fst).Nodup) :
    (l.map Prod.fst).flatMap
        (fun ns => (((lookupA l ns).getD []).map Prod.fst).map (fun pod => g ns pod)) =
      l.flatMap (fun p => p.2.map (fun q => g p.1 q.1)) := by
  induction l with
  | nil => rfl
  | cons p t ih =>
    rcases p with ⟨ns, pods⟩
    have hns : ns ∉ t.map Prod.fst := by
      simpa using (List.nodup_cons.mp hnd).1
    have htl := ih (List.nodup_cons.mp hnd).2
    simp only [List.map_cons, List.flatMap_cons]
    congr 1
    · rw [lookupA_cons_self]
      simp [List.map_map]
    · rw [← htl]
      apply List.flatMap_congr
      intro ns' h'
      have hne : ns ≠ ns' := fun hh => hns (hh ▸ h')
      rw [lookupA_cons_ne _ _ hne]

/-- C3: the rendered report is exactly the header, the pod table header, one
row per (namespace, pod) pair of the CPU mapping in that mapping's insertion
order — the row data cross-referencing memory and network with `0` rendered
for any absent value — then the ingress section; pods absent from the CPU
mapping (even if present in memory or network) contribute no row. -/
theorem renderer_rows_c3 (pm : PodMetrics) (im : IngressMetrics)
    (hnd : (pm.cpu.map Prod.fst).Nodup) :
    generate_markdown_report pm im =
      report_header pm ++ pod_table_header ++
        String.join ((spec_row_data pm).map renderRowData) ++
        ingress_section im ++ "\n"
  ∧ (spec_row_data pm).map (fun r => (r.ns, r.pod)) = cpuPairs pm := by
  constructor
  · have hrows : podRows pm = (spec_row_data pm).map renderRowData := by
      rw [podRows, keyed_rows_eq (fun ns pod => renderPodRow pm ns pod) pm.cpu hnd,
        spec_row_data, List.map_map, cpuPairs, List.map_flatMap]
      apply List.flatMap_congr
      intro p _
      rw [List.map_map]
      apply List.map_congr_left
      intro q _
      rfl
    rw [generate_markdown_report, hrows]
  · rw [spec_row_data, List.map_map]
    conv_rhs => rw [← List.map_id (cpuPairs pm)]
    apply List.map_congr_left
    intro p _
    rfl

/-- Witness for C3 at the spec's one-pod example (CPU entry only, no memory
or network cross-references). -/
theorem renderer_rows_c3_witness :
    generate_markdown_report
        { namespaces := ["default"], collection_time := "T", duration_minutes := 5,
          cpu := [("default", [("api-7f9",
            { usage_cores := Rat.divInt 1234 10000, usage_millicores := Rat.divInt 1234 10 })])],
          memory := [], network := [] }
        { hosts := [], ingress := [] } =
      report_header
        { namespaces := ["default"], collection_time := "T", duration_minutes := 5,
          cpu := [("default", [("api-7f9",
            { usage_cores := Rat.divInt 1234 10000, usage_millicores := Rat.divInt 1234 10 })])],
          memory := [], network := [] } ++
      pod_table_header ++
      String.join ((spec_row_data
        { namespaces := ["default"], collection_time := "T", duration_minutes := 5,
          cpu := [("default", [("api-7f9",
            { usage_cores := Rat.divInt 1234 10000, usage_millicores := Rat.divInt 1234 10 })])],
          memory := [], network := [] }).map renderRowData) ++
      ingress_section { hosts := [], ingress := [] } ++ "\n"
  ∧ (spec_row_data
        { namespaces := ["default"], collection_time := "T", duration_minutes := 5,
          cpu := [("default", [("api-7f9",
            { usage_cores := Rat.divInt 1234 10000, usage_millicores := Rat.divInt 1234 10 })])],
          memory := [], network := [] }).map (fun r => (r.ns, r.pod)) =
      cpuPairs
        { namespaces := ["default"], collection_time := "T", duration_minutes := 5,
          cpu := [("default", [("api-7f9",
            { usage_cores := Rat.divInt 1234 10000, usage_millicores := Rat.divInt 1234 10 })])],
          memory := [], network := [] } :=
  renderer_rows_c3
    { namespaces := ["default"], collection_time := "T", duration_minutes := 5,
      cpu := [("default", [("api-7f9",
        { usage_cores := Rat.divInt 1234 10000, usage_millicores := Rat.divInt 1234 10 })])],
      memory := [], network := [] }
    { hosts := [], ingress := [] } (by decide)

/-! ## Claim C8: no synthetic entries; partial records -/

theorem lookupA_alistSet_self {α : Type} (l : List (String × α)) (k : String) (v : α) :
    lookupA (alistSet l k v) k = some v := by
  induction l with
  | nil => simp [alistSet, lookupA]
  | cons p t ih =>
    rcases p with ⟨k', v'⟩
    rw [alistSet]
    split_ifs with h
    · subst h
      simp [lookupA]
    · rw [show lookupA ((k', v') :: alistSet t k v) k =
          lookupA (alistSet t k v) k from by simp [lookupA, h], ih]

theorem lookupA_alistSet_ne {α : Type} (l : List (String × α)) (k : String) (v : α)
    {k' : String} (h : k' ≠ k) : lookupA (alistSet l k v) k' = lookupA l k' := by
  induction l with
  | nil =>
    have hne : ¬k = k' := fun hh => h hh.symm
    simp [alistSet, lookupA, hne]
  | cons p t ih =>
    rcases p with ⟨k0, v0⟩
    rw [alistSet]
    split_ifs with h0
    · subst h0
      have hne : ¬k0 = k' := fun hh => h hh.symm
      simp [lookupA, hne]
    · by_cases hk : k0 = k'
      · subst hk
        simp [lookupA]
      · rw [show lookupA ((k0, v0) :: alistSet t k v) k' =
            lookupA (alistSet t k v) k' from by simp [lookupA, hk],
          show lookupA ((k0, v0) :: t) k' = lookupA t k' from by simp [lookupA, hk], ih]

theorem lookupA_getD_inner {α : Type} (m : NestedMap α) (a b : String) :
    lookupA ((lookupA m a).getD []) b = nestedLookup m a b := by
  rw [nestedLookup]
  cases lookupA m a <;> simp [lookupA]

theorem nestedLookup_nestedSet_self {α : Type} (m : NestedMap α) (a b : String)
    (f : Option α → α) :
    nestedLookup (nestedSet m a b f) a b = some (f (nestedLookup m a b)) := by
  rw [nestedSet, nestedLookup]
  rw [lookupA_alistSet_self]
  rw [Option.some_bind]
  rw [lookupA_alistSet_self, lookupA_getD_inner]

theorem nestedLookup_nestedSet_ne {α : Type} (m : NestedMap α) (a b : String)
    (f : Option α → α) {a' b' : String} (h : ¬(a' = a ∧ b' = b)) :
    nestedLookup (nestedSet m a b f) a' b' = nestedLookup m a' b' := by
  rw [nestedSet]
  by_cases ha : a' = a
  · subst ha
    have hb : b' ≠ b := fun hb => h ⟨rfl, hb⟩
    rw [nestedLookup, lookupA_alistSet_self, Option.some_bind,
      lookupA_alistSet_ne _ _ _ hb, lookupA_getD_inner]
  · rw [nestedLookup, lookupA_alistSet_ne _ _ _ ha, nestedLookup]

theorem mem_head_key {a b : String} {v : Rat} {s : String × String × Rat}
    (heq : (a, b, v) = s) : a = s.1 ∧ b = s.2.1 := by
  rw [← heq]
  exact ⟨rfl, rfl⟩

theorem nested_fold_isSome {α : Type} (upd : Rat → Option α → α)
    (l : List (String × String × Rat)) (acc : NestedMap α) (a b : String) :
    (nestedLookup (l.foldl (fun m s => nestedSet m s.1 s.2.1 (upd s.2.2)) acc) a b).isSome ↔
      (nestedLookup acc a b).isSome ∨ ∃ v, (a, b, v) ∈ l := by
  induction l generalizing acc with
  | nil => simp
  | cons s t ih =>
    rw [List.foldl_cons, ih]
    by_cases hab : a = s.1 ∧ b = s.2.1
    · rcases hab with ⟨ha, hb⟩
      subst ha
      subst hb
      rw [nestedLookup_nestedSet_self]
      constructor
      · intro _
        exact Or.inr ⟨s.2.2, show (s.1, s.2.1, s.2.2) ∈ s :: t from List.mem_cons_self s t⟩
      · intro _
        exact Or.inl rfl
    · rw [nestedLookup_nestedSet_ne _ _ _ _ hab]
      constructor
      · rintro (h | ⟨v, hv⟩)
        · exact Or.inl h
        · exact Or.inr ⟨v, List.mem_cons_of_mem s hv⟩
      · rintro (h | ⟨v, hv⟩)
        · exact Or.inl h
        · rcases List.mem_cons.mp hv with heq | hm
          · exact absurd (mem_head_key heq) hab
          · exact Or.inr ⟨v, hm⟩

theorem nested_fold_keep {α β : Type} (upd : Rat → Option α → α) (p : α → Option β)
    (hkeep : ∀ v o, p (upd v o) = o.bind p)
    (l : List (String × String × Rat)) (acc : NestedMap α) (a b : String) (r : α)
    (hr : nestedLookup (l.foldl (fun m s => nestedSet m s.1 s.2.1 (upd s.2.2)) acc) a b =
      some r) :
    (p r).isSome ↔ ∃ r0, nestedLookup acc a b = some r0 ∧ (p r0).isSome := by
  induction l generalizing acc with
  | nil =>
    rw [List.foldl_nil] at hr
    simp [hr]
  | cons s t ih =>
    rw [List.foldl_cons] at hr
    rw [ih _ hr]
    by_cases hab : a = s.1 ∧ b = s.2.1
    · rcases hab with ⟨ha, hb⟩
      subst ha
      subst hb
      rw [nestedLookup_nestedSet_self]
      constructor
      · rintro ⟨r0, hr0, hp0⟩
        rw [Option.some_inj] at hr0
        rw [← hr0, hkeep] at hp0
        rcases hacc : nestedLookup acc s.1 s.2.1 with _ | r1
        · rw [hacc] at hp0
          cases hp0
        · rw [hacc] at hp0
          exact ⟨r1, rfl, hp0⟩
      · rintro ⟨r0, hr0, hp0⟩
        refine ⟨upd s.2.2 (nestedLookup acc s.1 s.2.1), rfl, ?_⟩
        rw [hkeep, hr0]
        exact hp0
    · rw [nestedLookup_nestedSet_ne _ _ _ _ hab]

theorem nested_fold_set {α β : Type} (upd : Rat → Option α → α) (p : α → Option β)
    (hset : ∀ v o, (p (upd v o)).isSome)
    (l : List (String × String × Rat)) (acc : NestedMap α) (a b : String) (r : α)
    (hr : nestedLookup (l.foldl (fun m s => nestedSet m s.1 s.2.1 (upd s.2.2)) acc) a b =
      some r) :
    (p r).isSome ↔
      (∃ r0, nestedLookup acc a b = some r0 ∧ (p r0).isSome) ∨ ∃ v, (a, b, v) ∈ l := by
  induction l generalizing acc with
  | nil =>
    rw [List.foldl_nil] at hr
    simp [hr]
  | cons s t ih =>
    rw [List.foldl_cons] at hr
    rw [ih _ hr]
    by_cases hab : a = s.1 ∧ b = s.2.1
    · rcases hab with ⟨ha, hb⟩
      subst ha
      subst hb
      have h1 : ∃ r0, nestedLookup (nestedSet acc s.1 s.2.1 (upd s.2.2)) s.1 s.2.1 =
          some r0 ∧ (p r0).isSome := by
        rw [nestedLookup_nestedSet_self]
        exact ⟨_, rfl, hset _ _⟩
      constructor
      · intro _
        exact Or.inr ⟨s.2.2, show (s.1, s.2.1, s.2.2) ∈ s :: t from List.mem_cons_self s t⟩
      · intro _
        exact Or.inl h1
    · rw [nestedLookup_nestedSet_ne _ _ _ _ hab]
      constructor
      · rintro (h | ⟨v, hv⟩)
        · exact Or.inl h
        · exact Or.inr ⟨v, List.mem_cons_of_mem s hv⟩
      · rintro (h | ⟨v, hv⟩)
        · exact Or.inl h
        · rcases List.mem_cons.mp hv with heq | hm
          · exact absurd (mem_head_key heq) hab
          · exact Or.inr ⟨v, hm⟩

theorem nested_exists_set {α β : Type} (upd : Rat → Option α → α) (p : α → Option β)
    (hset : ∀ v o, (p (upd v o)).isSome)
    (l : List (String × String × Rat)) (acc : NestedMap α) (a b : String) :
    (∃ r, nestedLookup (l.foldl (fun m s => nestedSet m s.1 s.2.1 (upd s.2.2)) acc) a b =
        some r ∧ (p r).isSome) ↔
      (∃ r0, nestedLookup acc a b = some r0 ∧ (p r0).isSome) ∨ ∃ v, (a, b, v) ∈ l := by
  constructor
  · rintro ⟨r, hr, hp⟩
    exact (nested_fold_set upd p hset l acc a b r hr).mp hp
  · intro h
    have hs : (nestedLookup
        (l.foldl (fun m s => nestedSet m s.1 s.2.1 (upd s.2.2)) acc) a b).isSome := by
      rw [nested_fold_isSome]
      rcases h with ⟨r0, hr0, _⟩ | hv
      · exact Or.inl (by rw [hr0]; rfl)
      · exact Or.inr hv
    rcases Option.isSome_iff_exists.mp hs with ⟨r, hr⟩
    exact ⟨r, hr, (nested_fold_set upd p hset l acc a b r hr).mpr h⟩

theorem nested_exists_keep {α β : Type} (upd : Rat → Option α → α) (p : α → Option β)
    (hkeep : ∀ v o, p (upd v o) = o.bind p)
    (l : List (String × String × Rat)) (acc : NestedMap α) (a b : String) :
    (∃ r, nestedLookup (l.foldl (fun m s => nestedSet m s.1 s.2.1 (upd s.2.2)) acc) a b =
        some r ∧ (p r).isSome) ↔
      ∃ r0, nestedLookup acc a b = some r0 ∧ (p r0).isSome := by
  constructor
  · rintro ⟨r, hr, hp⟩
    exact (nested_fold_keep upd p hkeep l acc a b r hr).mp hp
  · rintro ⟨r0, hr0, hp0⟩
    have hs : (nestedLookup
        (l.foldl (fun m s => nestedSet m s.1 s.2.1 (upd s.2.2)) acc) a b).isSome := by
      rw [nested_fold_isSome]
      exact Or.inl (by rw [hr0]; rfl)
    rcases Option.isSome_iff_exists.mp hs with ⟨r, hr⟩
    exact ⟨r, hr, (nested_fold_keep upd p hkeep l acc a b r hr).mpr ⟨r0, hr0, hp0⟩⟩

theorem mem_head_hkey {h : String} {v : Rat} {s : String × Rat}
    (heq : (h, v) = s) : h = s.1 := by
  rw [← heq]

theorem host_fold_isSome {α : Type} (upd : Rat → Option α → α)
    (l : List (String × Rat)) (acc : List (String × α)) (h : String) :
    (lookupA (l.foldl (fun m s => alistSet m s.1 (upd s.2 (lookupA m s.1))) acc) h).isSome ↔
      (lookupA acc h).isSome ∨ ∃ v, (h, v) ∈ l := by
  induction l generalizing acc with
  | nil => simp
  | cons s t ih =>
    rw [List.foldl_cons, ih]
    by_cases hk : h = s.1
    · subst hk
      rw [lookupA_alistSet_self]
      constructor
      · intro _
        exact Or.inr ⟨s.2, show (s.1, s.2) ∈ s :: t from List.mem_cons_self s t⟩
      · intro _
        exact Or.inl rfl
    · rw [lookupA_alistSet_ne _ _ _ hk]
      constructor
      · rintro (hh | ⟨v, hv⟩)
        · exact Or.inl hh
        · exact Or.inr ⟨v, List.mem_cons_of_mem s hv⟩
      · rintro (hh | ⟨v, hv⟩)
        · exact Or.inl hh
        · rcases List.mem_cons.mp hv with heq | hm
          · exact absurd (mem_head_hkey heq) hk
          · exact Or.inr ⟨v, hm⟩

theorem host_fold_keep {α β : Type} (upd : Rat → Option α → α) (p : α → Option β)
    (hkeep : ∀ v o, p (upd v o) = o.bind p)
    (l : List (String × Rat)) (acc : List (String × α)) (h : String) (r : α)
    (hr : lookupA (l.foldl (fun m s => alistSet m s.1 (upd s.2 (lookupA m s.1))) acc) h =
      some r) :
    (p r).isSome ↔ ∃ r0, lookupA acc h = some r0 ∧ (p r0).isSome := by
  induction l generalizing acc with
  | nil =>
    rw [List.foldl_nil] at hr
    simp [hr]
  | cons s t ih =>
    rw [List.foldl_cons] at hr
    rw [ih _ hr]
    by_cases hk : h = s.1
    · subst hk
      rw [lookupA_alistSet_self]
      constructor
      · rintro ⟨r0, hr0, hp0⟩
        rw [Option.some_inj] at hr0
        rw [← hr0, hkeep] at hp0
        rcases hacc : lookupA acc s.1 with _ | r1
        · rw [hacc] at hp0
          cases hp0
        · rw [hacc] at hp0
          exact ⟨r1, rfl, hp0⟩
      · rintro ⟨r0, hr0, hp0⟩
        refine ⟨upd s.2 (lookupA acc s.1), rfl, ?_⟩
        rw [hkeep, hr0]
        exact hp0
    · rw [lookupA_alistSet_ne _ _ _ hk]

theorem host_fold_set {α β : Type} (upd : Rat → Option α → α) (p : α → Option β)
    (hset : ∀ v o, (p (upd v o)).isSome)
    (l : List (String × Rat)) (acc : List (String × α)) (h : String) (r : α)
    (hr : lookupA (l.foldl (fun m s => alistSet m s.1 (upd s.2 (lookupA m s.1))) acc) h =
      some r) :
    (p r).isSome ↔
      (∃ r0, lookupA acc h = some r0 ∧ (p r0).isSome) ∨ ∃ v, (h, v) ∈ l := by
  induction l generalizing acc with
  | nil =>
    rw [List.foldl_nil] at hr
    simp [hr]
  | cons s t ih =>
    rw [List.foldl_cons] at hr
    rw [ih _ hr]
    by_cases hk : h = s.1
    · subst hk
      have h1 : ∃ r0, lookupA (alistSet acc s.1 (upd s.2 (lookupA acc s.1))) s.1 =
          some r0 ∧ (p r0).isSome := by
        rw [lookupA_alistSet_self]
        exact ⟨_, rfl, hset _ _⟩
      constructor
      · intro _
        exact Or.inr ⟨s.2, show (s.1, s.2) ∈ s :: t from List.mem_cons_self s t⟩
      · intro _
        exact Or.inl h1
    · rw [lookupA_alistSet_ne _ _ _ hk]
      constructor
      · rintro (hh | ⟨v, hv⟩)
        · exact Or.inl hh
        · exact Or.inr ⟨v, List.mem_cons_of_mem s hv⟩
      · rintro (hh | ⟨v, hv⟩)
        · exact Or.inl hh
        · rcases List.mem_cons.mp hv with heq | hm
          · exact absurd (mem_head_hkey heq) hk
          · exact Or.inr ⟨v, hm⟩

theorem host_exists_set {α β : Type} (upd : Rat → Option α → α) (p : α → Option β)
    (hset : ∀ v o, (p (upd v o)).isSome)
    (l : List (String × Rat)) (acc : List (String × α)) (h : String) :
    (∃ r, lookupA (l.foldl (fun m s => alistSet m s.1 (upd s.2 (lookupA m s.1))) acc) h =
        some r ∧ (p r).isSome) ↔
      (∃ r0, lookupA acc h = some r0 ∧ (p r0).isSome) ∨ ∃ v, (h, v) ∈ l := by
  constructor
  · rintro ⟨r, hr, hp⟩
    exact (host_fold_set upd p hset l acc h r hr).mp hp
  · intro hh
    have hs : (lookupA
        (l.foldl (fun m s => alistSet m s.1 (upd s.2 (lookupA m s.1))) acc) h).isSome := by
      rw [host_fold_isSome]
      rcases hh with ⟨r0, hr0, _⟩ | hv
      · exact Or.inl (by rw [hr0]; rfl)
      · exact Or.inr hv
    rcases Option.isSome_iff_exists.mp hs with ⟨r, hr⟩
    exact ⟨r, hr, (host_fold_set upd p hset l acc h r hr).mpr hh⟩

theorem host_exists_keep {α β : Type} (upd : Rat → Option α → α) (p : α → Option β)
    (hkeep : ∀ v o, p (upd v o) = o.bind p)
    (l : List (String × Rat)) (acc : List (String × α)) (h : String) :
    (∃ r, lookupA (l.foldl (fun m s => alistSet m s.1 (upd s.2 (lookupA m s.1))) acc) h =
        some r ∧ (p r).isSome) ↔
      ∃ r0, lookupA acc h = some r0 ∧ (p r0).isSome := by
  constructor
  · rintro ⟨r, hr, hp⟩
    exact (host_fold_keep upd p hkeep l acc h r hr).mp hp
  · rintro ⟨r0, hr0, hp0⟩
    have hs : (lookupA
        (l.foldl (fun m s => alistSet m s.1 (upd s.2 (lookupA m s.1))) acc) h).isSome := by
      rw [host_fold_isSome]
      exact Or.inl (by rw [hr0]; rfl)
    rcases Option.isSome_iff_exists.mp hs with ⟨r, hr⟩
    exact ⟨r, hr, (host_fold_keep upd p hkeep l acc h r hr).mpr ⟨r0, hr0, hp0⟩⟩

theorem foldlM_pod {α : Type} (f : Rat → Option α → α) (rows : List Json)
    (acc : NestedMap α) :
    (rows.foldlM (fun m item => do
        let s ← readPodSample item
        return nestedSet m s.1 s.2.1 (f s.2.2)) acc) =
      (optionMapList readPodSample rows).bind (fun l =>
        some (l.foldl (fun m s => nestedSet m s.1 s.2.1 (f s.2.2)) acc)) := by
  induction rows generalizing acc with
  | nil => rfl
  | cons r rs ih =>
    cases hr : readPodSample r with
    | none => simp [List.foldlM_cons, optionMapList, hr]
    | some s =>
      have step : List.foldlM (fun m item => do
          let s ← readPodSample item
          return nestedSet m s.1 s.2.1 (f s.2.2)) acc (r :: rs) =
        List.foldlM (fun m item => do
          let s ← readPodSample item
          return nestedSet m s.1 s.2.1 (f s.2.2)) (nestedSet acc s.1 s.2.1 (f s.2.2)) rs := by
        rw [List.foldlM_cons, hr]
        rfl
      rw [step, ih, optionMapList, hr]
      cases optionMapList readPodSample rs <;> simp

theorem foldlM_host (f : Rat → Option IngressEntry → IngressEntry) (rows : List Json)
    (acc : List (String × IngressEntry)) :
    (rows.foldlM (fun m item => do
        let s ← readHostSample item
        return alistSet m s.1 (f s.2 (lookupA m s.1))) acc) =
      (optionMapList readHostSample rows).bind (fun l =>
        some (l.foldl (fun m s => alistSet m s.1 (f s.2 (lookupA m s.1))) acc)) := by
  induction rows generalizing acc with
  | nil => rfl
  | cons r rs ih =>
    cases hr : readHostSample r with
    | none => simp [List.foldlM_cons, optionMapList, hr]
    | some s =>
      have step : List.foldlM (fun m item => do
          let s ← readHostSample item
          return alistSet m s.1 (f s.2 (lookupA m s.1))) acc (r :: rs) =
        List.foldlM (fun m item => do
          let s ← readHostSample item
          return alistSet m s.1 (f s.2 (lookupA m s.1))) (alistSet acc s.1 (f s.2 (lookupA acc s.1))) rs := by
        rw [List.foldlM_cons, hr]
        rfl
      rw [step, ih, optionMapList, hr]
      cases optionMapList readHostSample rs <;> simp

theorem processPodFamily_eq_samples {α : Type} (e : Json) (f : Rat → Option α → α)
    (acc : NestedMap α) :
    processPodFamily e f acc =
      (podSamples e).bind (fun l =>
        some (l.foldl (fun m s => nestedSet m s.1 s.2.1 (f s.2.2)) acc)) := by
  rw [processPodFamily, podSamples]
  cases hst : pyGet e "status" .null with
  | none => rfl
  | some st =>
    simp only [Option.bind_eq_bind, Option.some_bind]
    by_cases hs : st.strEq "success"
    · simp only [hs, if_true]
      cases hd : pyGet e "data" (.obj []) with
      | none => rfl
      | some dj =>
        simp only [Option.bind_eq_bind, Option.some_bind]
        cases hr : pyGet dj "result" (.arr []) with
        | none => rfl
        | some res =>
          simp only [Option.bind_eq_bind, Option.some_bind]
          cases hi : pyIter res with
          | none => rfl
          | some rows =>
            simp only [Option.bind_eq_bind, Option.some_bind]
            exact foldlM_pod f rows acc
    · simp [hs]

theorem processHostFamily_eq_samples (e : Json) (f : Rat → Option IngressEntry → IngressEntry)
    (acc : List (String × IngressEntry)) :
    processHostFamily e f acc =
      (hostSamples e).bind (fun l =>
        some (l.foldl (fun m s => alistSet m s.1 (f s.2 (lookupA m s.1))) acc)) := by
  rw [processHostFamily, hostSamples]
  cases hst : pyGet e "status" .null with
  | none => rfl
  | some st =>
    simp only [Option.bind_eq_bind, Option.some_bind]
    by_cases hs : st.strEq "success"
    · simp only [hs, if_true]
      cases hd : pyGet e "data" (.obj []) with
      | none => rfl
      | some dj =>
        simp only [Option.bind_eq_bind, Option.some_bind]
        cases hr : pyGet dj "result" (.arr []) with
        | none => rfl
        | some res =>
          simp only [Option.bind_eq_bind, Option.some_bind]
          cases hi : pyIter res with
          | none => rfl
          | some rows =>
            simp only [Option.bind_eq_bind, Option.some_bind]
            exact foldlM_host f rows acc
    · simp [hs]

theorem nested_exists_set_nil {α β : Type} (upd : Rat → Option α → α) (p : α → Option β)
    (hset : ∀ v o, (p (upd v o)).isSome)
    (l : List (String × String × Rat)) (a b : String) :
    (∃ r, nestedLookup (l.foldl (fun m s => nestedSet m s.1 s.2.1 (upd s.2.2)) []) a b =
        some r ∧ (p r).isSome) ↔ ∃ v, (a, b, v) ∈ l := by
  rw [nested_exists_set upd p hset l [] a b]
  simp [nestedLookup, lookupA]

theorem nested_exists_keep_nil {α β : Type} (upd : Rat → Option α → α) (p : α → Option β)
    (hkeep : ∀ v o, p (upd v o) = o.bind p)
    (l : List (String × String × Rat)) (a b : String) :
    (∃ r, nestedLookup (l.foldl (fun m s => nestedSet m s.1 s.2.1 (upd s.2.2)) []) a b =
        some r ∧ (p r).isSome) ↔ False := by
  rw [nested_exists_keep upd p hkeep l [] a b]
  simp [nestedLookup, lookupA]

theorem host_exists_set_nil {α β : Type} (upd : Rat → Option α → α) (p : α → Option β)
    (hset : ∀ v o, (p (upd v o)).isSome)
    (l : List (String × Rat)) (h : String) :
    (∃ r, lookupA (l.foldl (fun m s => alistSet m s.1 (upd s.2 (lookupA m s.1))) []) h =
        some r ∧ (p r).isSome) ↔ ∃ v, (h, v) ∈ l := by
  rw [host_exists_set upd p hset l [] h]
  simp [lookupA]

theorem host_exists_keep_nil {α β : Type} (upd : Rat → Option α → α) (p : α → Option β)
    (hkeep : ∀ v o, p (upd v o) = o.bind p)
    (l : List (String × Rat)) (h : String) :
    (∃ r, lookupA (l.foldl (fun m s => alistSet m s.1 (upd s.2 (lookupA m s.1))) []) h =
        some r ∧ (p r).isSome) ↔ False := by
  rw [host_exists_keep upd p hkeep l [] h]
  simp [lookupA]

/-- C8: mappings carry a key only when some query returned a sample for it,
and nothing is fabricated for a missing family: (a) a (namespace, pod) pair
appears in the CPU, memory or network mapping only if one of the four
workload queries returned a sample for it; (b) a network record's rx (resp.
tx) keys are present exactly when the receive (resp. transmit) query returned
a sample for that pod — a pod seen by only one direction keeps a partial
record; (c) each ingress record key — including the latency percentiles — is
present exactly when its own query returned a sample for that host, never
stored as a default zero. -/
theorem no_fabrication_c8 (client : String → Option Json) (ns hosts : List String)
    (d : Nat) (t : String) (eCpu eMem eRx eTx eReq eRate e50 e95 e99 : Json)
    (cCpu : client (cpu_query ns d) = some eCpu)
    (cMem : client (mem_query ns) = some eMem)
    (cRx : client (net_rx_query ns d) = some eRx)
    (cTx : client (net_tx_query ns d) = some eTx)
    (cReq : client (req_query hosts) = some eReq)
    (cRate : client (rate_query hosts d) = some eRate)
    (c50 : client (latency_query "0.5" hosts d) = some e50)
    (c95 : client (latency_query "0.95" hosts d) = some e95)
    (c99 : client (latency_query "0.99" hosts d) = some e99)
    (m : PodMetrics) (hm : collect_pod_metrics client ns d t = some m)
    (mi : IngressMetrics) (hmi : collect_ingress_metrics client hosts d = some mi) :
    (∀ a b,
      ((nestedLookup m.cpu a b).isSome ∨ (nestedLookup m.memory a b).isSome ∨
        (nestedLookup m.network a b).isSome) →
      SampleKey eCpu a b ∨ SampleKey eMem a b ∨ SampleKey eRx a b ∨ SampleKey eTx a b)
  ∧ (∀ a b r, nestedLookup m.network a b = some r →
      (r.rx_bytes_per_sec.isSome ↔ SampleKey eRx a b)
      ∧ (r.rx_kb_per_sec.isSome ↔ SampleKey eRx a b)
      ∧ (r.tx_bytes_per_sec.isSome ↔ SampleKey eTx a b)
      ∧ (r.tx_kb_per_sec.isSome ↔ SampleKey eTx a b))
  ∧ (∀ h rec, lookupA mi.ingress h = some rec →
      (rec.total_requests.isSome ↔ HostSampleKey eReq h)
      ∧ (rec.requests_per_sec.isSome ↔ HostSampleKey eRate h)
      ∧ (rec.p50_latency_ms.isSome ↔ HostSampleKey e50 h)
      ∧ (rec.p95_latency_ms.isSome ↔ HostSampleKey e95 h)
      ∧ (rec.p99_latency_ms.isSome ↔ HostSampleKey e99 h)) := by
  simp only [collect_pod_metrics, cCpu, cMem, cRx, cTx, Option.bind_eq_bind, Option.some_bind,
    processPodFamily_eq_samples] at hm
  rcases h1 : podSamples eCpu with _ | lc
  · rw [h1] at hm
    simp at hm
  rw [h1] at hm
  simp only [Option.some_bind] at hm
  rcases h2 : podSamples eMem with _ | lm
  · rw [h2] at hm
    simp at hm
  rw [h2] at hm
  simp only [Option.some_bind] at hm
  rcases h3 : podSamples eRx with _ | lr
  · rw [h3] at hm
    simp at hm
  rw [h3] at hm
  simp only [Option.some_bind] at hm
  rcases h4 : podSamples eTx with _ | lt4
  · rw [h4] at hm
    simp at hm
  rw [h4] at hm
  simp only [Option.some_bind] at hm
  simp only [Option.pure_def, Option.some_inj] at hm
  subst hm
  simp only [collect_ingress_metrics, cReq, cRate, c50, c95, c99, Option.bind_eq_bind,
    Option.some_bind, processHostFamily_eq_samples] at hmi
  rcases h5 : hostSamples eReq with _ | lreq
  · rw [h5] at hmi
    simp at hmi
  rw [h5] at hmi
  simp only [Option.some_bind] at hmi
  rcases h6 : hostSamples eRate with _ | lrate
  · rw [h6] at hmi
    simp at hmi
  rw [h6] at hmi
  simp only [Option.some_bind] at hmi
  rcases h7 : hostSamples e50 with _ | l50
  · rw [h7] at hmi
    simp at hmi
  rw [h7] at hmi
  simp only [Option.some_bind] at hmi
  rcases h8 : hostSamples e95 with _ | l95
  · rw [h8] at hmi
    simp at hmi
  rw [h8] at hmi
  simp only [Option.some_bind] at hmi
  rcases h9 : hostSamples e99 with _ | l99
  · rw [h9] at hmi
    simp at hmi
  rw [h9] at hmi
  simp only [Option.some_bind] at hmi
  simp only [Option.pure_def, Option.some_inj] at hmi
  subst hmi
  have keyCpu : ∀ a b, SampleKey eCpu a b ↔ ∃ v, (a, b, v) ∈ lc := by
    intro a b
    constructor
    · rintro ⟨l', v, hl', hv⟩
      rw [h1, Option.some_inj] at hl'
      exact ⟨v, hl' ▸ hv⟩
    · rintro ⟨v, hv⟩
      exact ⟨lc, v, h1, hv⟩
  have keyMem : ∀ a b, SampleKey eMem a b ↔ ∃ v, (a, b, v) ∈ lm := by
    intro a b
    constructor
    · rintro ⟨l', v, hl', hv⟩
      rw [h2, Option.some_inj] at hl'
      exact ⟨v, hl' ▸ hv⟩
    · rintro ⟨v, hv⟩
      exact ⟨lm, v, h2, hv⟩
  have keyRx : ∀ a b, SampleKey eRx a b ↔ ∃ v, (a, b, v) ∈ lr := by
    intro a b
    constructor
    · rintro ⟨l', v, hl', hv⟩
      rw [h3, Option.some_inj] at hl'
      exact ⟨v, hl' ▸ hv⟩
    · rintro ⟨v, hv⟩
      exact ⟨lr, v, h3, hv⟩
  have keyTx : ∀ a b, SampleKey eTx a b ↔ ∃ v, (a, b, v) ∈ lt4 := by
    intro a b
    constructor
    · rintro ⟨l', v, hl', hv⟩
      rw [h4, Option.some_inj] at hl'
      exact ⟨v, hl' ▸ hv⟩
    · rintro ⟨v, hv⟩
      exact ⟨lt4, v, h4, hv⟩
  have keyReq : ∀ h, HostSampleKey eReq h ↔ ∃ v, (h, v) ∈ lreq := by
    intro h
    constructor
    · rintro ⟨l', v, hl', hv⟩
      rw [h5, Option.some_inj] at hl'
      exact ⟨v, hl' ▸ hv⟩
    · rintro ⟨v, hv⟩
      exact ⟨lreq, v, h5, hv⟩
  have keyRate : ∀ h, HostSampleKey eRate h ↔ ∃ v, (h, v) ∈ lrate := by
    intro h
    constructor
    · rintro ⟨l', v, hl', hv⟩
      rw [h6, Option.some_inj] at hl'
      exact ⟨v, hl' ▸ hv⟩
    · rintro ⟨v, hv⟩
      exact ⟨lrate, v, h6, hv⟩
  have key50 : ∀ h, HostSampleKey e50 h ↔ ∃ v, (h, v) ∈ l50 := by
    intro h
    constructor
    · rintro ⟨l', v, hl', hv⟩
      rw [h7, Option.some_inj] at hl'
      exact ⟨v, hl' ▸ hv⟩
    · rintro ⟨v, hv⟩
      exact ⟨l50, v, h7, hv⟩
  have key95 : ∀ h, HostSampleKey e95 h ↔ ∃ v, (h, v) ∈ l95 := by
    intro h
    constructor
    · rintro ⟨l', v, hl', hv⟩
      rw [h8, Option.some_inj] at hl'
      exact ⟨v, hl' ▸ hv⟩
    · rintro ⟨v, hv⟩
      exact ⟨l95, v, h8, hv⟩
  have key99 : ∀ h, HostSampleKey e99 h ↔ ∃ v, (h, v) ∈ l99 := by
    intro h
    constructor
    · rintro ⟨l', v, hl', hv⟩
      rw [h9, Option.some_inj] at hl'
      exact ⟨v, hl' ▸ hv⟩
    · rintro ⟨v, hv⟩
      exact ⟨l99, v, h9, hv⟩
  refine ⟨?_, ?_, ?_⟩
  · intro a b hkey
    dsimp only at hkey
    rcases hkey with hc | hmm2 | hn
    · rw [nested_fold_isSome] at hc
      rcases hc with h0 | ⟨v, hv⟩
      · simp [nestedLookup, lookupA] at h0
      · exact Or.inl ((keyCpu a b).mpr ⟨v, hv⟩)
    · rw [nested_fold_isSome] at hmm2
      rcases hmm2 with h0 | ⟨v, hv⟩
      · simp [nestedLookup, lookupA] at h0
      · exact Or.inr (Or.inl ((keyMem a b).mpr ⟨v, hv⟩))
    · rw [nested_fold_isSome] at hn
      rcases hn with hinner | ⟨v, hv⟩
      · rw [nested_fold_isSome] at hinner
        rcases hinner with h0 | ⟨v, hv⟩
        · simp [nestedLookup, lookupA] at h0
        · exact Or.inr (Or.inr (Or.inl ((keyRx a b).mpr ⟨v, hv⟩)))
      · exact Or.inr (Or.inr (Or.inr ((keyTx a b).mpr ⟨v, hv⟩)))
  · intro a b r hr
    dsimp only at hr
    refine ⟨?_, ?_, ?_, ?_⟩
    · have h5x := nested_fold_keep txUpd (fun e => e.rx_bytes_per_sec)
        (fun v o => by cases o <;> rfl) lt4 _ a b r hr
      rw [nested_exists_set_nil rxUpd (fun e => e.rx_bytes_per_sec)
        (fun v o => rfl) lr a b] at h5x
      rw [keyRx]
      exact h5x
    · have h5x := nested_fold_keep txUpd (fun e => e.rx_kb_per_sec)
        (fun v o => by cases o <;> rfl) lt4 _ a b r hr
      rw [nested_exists_set_nil rxUpd (fun e => e.rx_kb_per_sec)
        (fun v o => rfl) lr a b] at h5x
      rw [keyRx]
      exact h5x
    · have h5x := nested_fold_set txUpd (fun e => e.tx_bytes_per_sec)
        (fun v o => rfl) lt4 _ a b r hr
      rw [nested_exists_keep_nil rxUpd (fun e => e.tx_bytes_per_sec)
        (fun v o => by cases o <;> rfl) lr a b, false_or] at h5x
      rw [keyTx]
      exact h5x
    · have h5x := nested_fold_set txUpd (fun e => e.tx_kb_per_sec)
        (fun v o => rfl) lt4 _ a b r hr
      rw [nested_exists_keep_nil rxUpd (fun e => e.tx_kb_per_sec)
        (fun v o => by cases o <;> rfl) lr a b, false_or] at h5x
      rw [keyTx]
      exact h5x
  · intro h rec hrec
    dsimp only at hrec
    refine ⟨?_, ?_, ?_, ?_, ?_⟩
    · have h5x := host_fold_keep p99Upd (fun e => e.total_requests)
        (fun v o => by cases o <;> rfl) l99 _ h rec hrec
      rw [host_exists_keep p95Upd (fun e => e.total_requests)
          (fun v o => by cases o <;> rfl),
        host_exists_keep p50Upd (fun e => e.total_requests)
          (fun v o => by cases o <;> rfl),
        host_exists_keep rateUpd (fun e => e.total_requests)
          (fun v o => by cases o <;> rfl),
        host_exists_set_nil reqUpd (fun e => e.total_requests)
          (fun v o => rfl) lreq h] at h5x
      rw [keyReq]
      exact h5x
    · have h5x := host_fold_keep p99Upd (fun e => e.requests_per_sec)
        (fun v o => by cases o <;> rfl) l99 _ h rec hrec
      rw [host_exists_keep p95Upd (fun e => e.requests_per_sec)
          (fun v o => by cases o <;> rfl),
        host_exists_keep p50Upd (fun e => e.requests_per_sec)
          (fun v o => by cases o <;> rfl),
        host_exists_set rateUpd (fun e => e.requests_per_sec)
          (fun v o => rfl),
        host_exists_keep_nil reqUpd (fun e => e.requests_per_sec)
          (fun v o => by cases o <;> rfl) lreq h, false_or] at h5x
      rw [keyRate]
      exact h5x
    · have h5x := host_fold_keep p99Upd (fun e => e.p50_latency_ms)
        (fun v o => by cases o <;> rfl) l99 _ h rec hrec
      rw [host_exists_keep p95Upd (fun e => e.p50_latency_ms)
          (fun v o => by cases o <;> rfl),
        host_exists_set p50Upd (fun e => e.p50_latency_ms)
          (fun v o => rfl),
        host_exists_keep rateUpd (fun e => e.p50_latency_ms)
          (fun v o => by cases o <;> rfl),
        host_exists_keep_nil reqUpd (fun e => e.p50_latency_ms)
          (fun v o => by cases o <;> rfl) lreq h, false_or] at h5x
      rw [key50]
      exact h5x
    · have h5x := host_fold_keep p99Upd (fun e => e.p95_latency_ms)
        (fun v o => by cases o <;> rfl) l99 _ h rec hrec
      rw [host_exists_set p95Upd (fun e => e.p95_latency_ms)
          (fun v o => rfl),
        host_exists_keep p50Upd (fun e => e.p95_latency_ms)
          (fun v o => by cases o <;> rfl),
        host_exists_keep rateUpd (fun e => e.p95_latency_ms)
          (fun v o => by cases o <;> rfl),
        host_exists_keep_nil reqUpd (fun e => e.p95_latency_ms)
          (fun v o => by cases o <;> rfl) lreq h, false_or] at h5x
      rw [key95]
      exact h5x
    · have h5x := host_fold_set p99Upd (fun e => e.p99_latency_ms)
        (fun v o => rfl) l99 _ h rec hrec
      rw [host_exists_keep p95Upd (fun e => e.p99_latency_ms)
          (fun v o => by cases o <;> rfl),
        host_exists_keep p50Upd (fun e => e.p99_latency_ms)
          (fun v o => by cases o <;> rfl),
        host_exists_keep rateUpd (fun e => e.p99_latency_ms)
          (fun v o => by cases o <;> rfl),
        host_exists_keep_nil reqUpd (fun e => e.p99_latency_ms)
          (fun v o => by cases o <;> rfl) lreq h, false_or] at h5x
      rw [key99]
      exact h5x

/-- Witness for C8: a pod (`db`) seen only by the receive query and a host
whose rate, p50 and p99 queries returned no data. -/
theorem no_fabrication_c8_witness :
    (∀ a b,
      ((nestedLookup fixturePod.cpu a b).isSome ∨ (nestedLookup fixturePod.memory a b).isSome ∨
        (nestedLookup fixturePod.network a b).isSome) →
      SampleKey fixtureCpuEnv a b ∨ SampleKey fixtureMemEnv a b ∨ SampleKey fixtureRxEnv a b ∨
        SampleKey fixtureTxEnv a b)
  ∧ (∀ a b r, nestedLookup fixturePod.network a b = some r →
      (r.rx_bytes_per_sec.isSome ↔ SampleKey fixtureRxEnv a b)
      ∧ (r.rx_kb_per_sec.isSome ↔ SampleKey fixtureRxEnv a b)
      ∧ (r.tx_bytes_per_sec.isSome ↔ SampleKey fixtureTxEnv a b)
      ∧ (r.tx_kb_per_sec.isSome ↔ SampleKey fixtureTxEnv a b))
  ∧ (∀ h rec, lookupA fixtureIngress.ingress h = some rec →
      (rec.total_requests.isSome ↔ HostSampleKey fixtureReqEnv h)
      ∧ (rec.requests_per_sec.isSome ↔ HostSampleKey fixtureRateEnv h)
      ∧ (rec.p50_latency_ms.isSome ↔ HostSampleKey fixtureP50Env h)
      ∧ (rec.p95_latency_ms.isSome ↔ HostSampleKey fixtureP95Env h)
      ∧ (rec.p99_latency_ms.isSome ↔ HostSampleKey fixtureP99Env h)) :=
  no_fabrication_c8 fixtureClient ["default"] ["h"] 5 "T"
    fixtureCpuEnv fixtureMemEnv fixtureRxEnv fixtureTxEnv fixtureReqEnv fixtureRateEnv
    fixtureP50Env fixtureP95Env fixtureP99Env
    rfl rfl rfl rfl rfl rfl rfl rfl rfl
    fixturePod (by decide) fixtureIngress (by decide)

end CollectMetrics
